import Mathlib

/-!
Shallow embedding of the `ReportesServicio` data model
(`src/models/activity_model.py` and `src/models/report_model.py`).

Python strings are modelled as `List Char`; Python's stateful methods are
modelled as functions returning the updated record together with the
method's return value.  The filesystem consulted by the image checks is
passed explicitly as a map from paths to file sizes.
-/

namespace ReportesServicio

/-- Python strings, modelled as lists of characters. -/
abbrev Str := List Char

/-- ASCII decimal digit test (`0`-`9`), as Python's `\d` / `int` accept in
the ASCII strings this code handles. -/
def isDig (c : Char) : Bool := 48 ≤ c.toNat ∧ c.toNat ≤ 57

/-- Numeric value of a decimal digit character. -/
def digitVal (c : Char) : Nat := c.toNat - 48

/-- The decimal digit character for `n % 10`. -/
def digitChar (n : Nat) : Char := Char.ofNat (48 + n % 10)

/-- Big-endian decimal digit characters of a positive number (empty for 0).
The first argument is structural fuel; any fuel at least the value itself is
enough, so `natDigits` below passes the value. -/
def natDigitsAux : Nat → Nat → Str
  | _, 0 => []
  | 0, _ + 1 => []
  | fuel + 1, n + 1 => natDigitsAux fuel ((n + 1) / 10) ++ [digitChar (n + 1)]

/-- Decimal rendering of a natural number, as Python's `str`/`"{:d}"` produce it. -/
def natDigits (n : Nat) : Str := if n = 0 then ['0'] else natDigitsAux n n

/-- Python's `f"{n:02d}"` for a non-negative value: zero-pad to width 2. -/
def fmt02 (n : Nat) : Str := if n < 10 then ['0', digitChar n] else natDigits n

/-- Python's `f"{i:02d}"` on an `int` (a negative value keeps its sign). -/
def fmt02i (i : Int) : Str :=
  if i < 0 then '-' :: natDigits i.natAbs else fmt02 i.toNat

/-- Parse a non-empty all-digit string to a number (helper for Python `int`). -/
def parseNatDigits (l : Str) : Option Nat :=
  if l ≠ [] ∧ l.all isDig then
    some (l.foldl (fun acc c => acc * 10 + digitVal c) 0)
  else none

/-- Python's `int(s)` on the numeric strings this code produces:
an optional minus sign followed by decimal digits; `none` models the
`ValueError` raised on anything else. -/
def pyInt (l : Str) : Option Int :=
  match l with
  | [] => none
  | c :: rest =>
    if c = '-' then (parseNatDigits rest).map (fun n => -(n : Int))
    else (parseNatDigits (c :: rest)).map (fun n => (n : Int))

/-- Python's `str.split(sep)` for a one-character separator. -/
def splitOnChar (sep : Char) : Str → List Str
  | [] => [[]]
  | c :: rest =>
    match splitOnChar sep rest with
    | [] => if c = sep then [[], []] else [[c]]
    | h :: t => if c = sep then [] :: h :: t else (c :: h) :: t

/-!
## `strptime(s, "%H:%M")`

CPython compiles `%H` to the regex alternation `2[0-3]|[0-1]\d|\d` and `%M`
to `[0-5]\d|\d`, matches the whole format against the string and rejects
trailing input.  A two-digit branch matches exactly when the two-digit value
is in range, otherwise a single digit is consumed.
-/

/-- Match `%H` (`2[0-3]|[0-1]\d|\d`) at the head of the string, returning the
hour value and the unconsumed remainder. -/
def matchHour : Str → Option (Nat × Str)
  | [] => none
  | [c] => if isDig c then some (digitVal c, []) else none
  | c1 :: c2 :: rest =>
    if isDig c1 ∧ isDig c2 ∧ 10 * digitVal c1 + digitVal c2 ≤ 23 then
      some (10 * digitVal c1 + digitVal c2, rest)
    else if isDig c1 then some (digitVal c1, c2 :: rest)
    else none

/-- Match `%M` (`[0-5]\d|\d`) at the head of the string. -/
def matchMinute : Str → Option (Nat × Str)
  | [] => none
  | [c] => if isDig c then some (digitVal c, []) else none
  | c1 :: c2 :: rest =>
    if isDig c1 ∧ isDig c2 ∧ digitVal c1 ≤ 5 then
      some (10 * digitVal c1 + digitVal c2, rest)
    else if isDig c1 then some (digitVal c1, c2 :: rest)
    else none

/-- `datetime.strptime(s, "%H:%M")`: hour, literal colon, minute, end of
string; `none` models the `ValueError` on mismatch. -/
def strptimeHM (l : Str) : Option (Nat × Nat) :=
  match matchHour l with
  | some (h, ':' :: rest) =>
    match matchMinute rest with
    | some (m, []) => some (h, m)
    | _ => none
  | _ => none

/-!
## Filesystem model

`os.path.exists` / `os.path.getsize` are modelled by an explicit map from
paths to the size (in bytes) of the existing file at that path.
-/

/-- The filesystem: `fs p = some size` iff a file of `size` bytes exists at
path `p`. -/
abbrev FileSystem := Str → Option Nat

/-- The characters after the last `/` of a path (`os.path` basename part). -/
def lastBase (p : Str) : Str := (p.reverse.takeWhile (· ≠ '/')).reverse

/-- `os.path.splitext(p)[1]`: the extension starting at the last dot of the
basename, except that leading dots of the basename never start an
extension (`".bashrc"` has no extension). -/
def splitextExt (p : Str) : Str :=
  let stem := (lastBase p).dropWhile (· = '.')
  if stem.contains '.' then '.' :: (stem.reverse.takeWhile (· ≠ '.')).reverse
  else []

/-- `os.path.splitext(p)[1].lower()`. -/
def extLower (p : Str) : Str := (splitextExt p).map Char.toLower

/-!
## The `Activity` model (`src/models/activity_model.py`)

`_duration` is the private cache field; it is part of the record because the
Python methods read and write it.
-/

structure Activity where
  title : Str
  description : Str
  start_time : Str
  end_time : Str
  images : List Str
  _duration : Str
deriving DecidableEq, Repr

namespace Activity

/-- `Activity.MAX_IMAGES`. -/
def MAX_IMAGES : Nat := 5

/-- `Activity.MAX_SIZE_IMAGE_MB`. -/
def MAX_SIZE_IMAGE_MB : Nat := 10

/-- `Activity.FORMATS_ALLOW_IMAGE`. -/
def FORMATS_ALLOW_IMAGE : List Str := [".jpg".toList, ".jpeg".toList, ".png".toList]

/-- `Activity._validate_format_hour`: non-empty and `strptime(h, "%H:%M")`
succeeds. -/
def validate_format_hour (hour : Str) : Bool :=
  if hour = [] then false else (strptimeHM hour).isSome

/-- The duration string `f"{hours:02d}:{minutes:02d}"`. -/
def formatHM (h m : Nat) : Str := fmt02 h ++ ':' :: fmt02 m

/-- `Activity.calculate_duration`: validates both times, parses them, adds a
day to the end when `end <= start`, and stores/returns the formatted
difference.  Arithmetic is in seconds, as in the Python
`total_seconds()`-based code. -/
def calculate_duration (a : Activity) : Activity × Str :=
  if ¬ validate_format_hour a.start_time then
    let d := "Invalid start time".toList
    ({ a with _duration := d }, d)
  else if ¬ validate_format_hour a.end_time then
    let d := "Invalid end time".toList
    ({ a with _duration := d }, d)
  else
    match strptimeHM a.start_time, strptimeHM a.end_time with
    | some (hs, ms), some (he, me) =>
      let start := hs * 3600 + ms * 60
      let stop := he * 3600 + me * 60
      let stop := if stop ≤ start then stop + 86400 else stop
      let difference := stop - start
      let d := formatHM (difference / 3600) (difference % 3600 / 60)
      ({ a with _duration := d }, d)
    | _, _ =>
      -- unreachable: `validate_format_hour` succeeded on both times
      let d := "Calculate Error".toList
      ({ a with _duration := d }, d)

/-- `Activity.get_duration_in_minutes`: recalculates when the cache is empty
or has no colon, then splits the cached string on `:`; any parse failure
(caught `ValueError`) yields 0. -/
def get_duration_in_minutes (a : Activity) : Activity × Int :=
  let a := if a._duration = [] ∨ ¬ a._duration.contains ':' then
    (calculate_duration a).1 else a
  if ¬ a._duration.contains ':' then (a, 0)
  else
    match splitOnChar ':' a._duration with
    | [hs, ms] =>
      match pyInt hs, pyInt ms with
      | some h, some m => (a, h * 60 + m)
      | _, _ => (a, 0)
    | _ => (a, 0)

/-- The `Activity.duration` property: recalculates only when the cache is
empty, otherwise returns the cached string. -/
def duration (a : Activity) : Activity × Str :=
  if a._duration = [] then calculate_duration a else (a, a._duration)

/-- `Activity.__init__`: stores the fields and computes the duration when
both time strings are non-empty. -/
def mk' (title description start_time end_time : Str) (images : List Str) :
    Activity :=
  let a : Activity := ⟨title, description, start_time, end_time, images, []⟩
  if start_time ≠ [] ∧ end_time ≠ [] then (calculate_duration a).1 else a

/-- Parse an `"H:M"` string by `map(int, s.split(":"))` unpacked into two
values, as `validate_hours` does; `none` models the caught `ValueError`. -/
def parseSplitHM (s : Str) : Option (Int × Int) :=
  match splitOnChar ':' s with
  | [a, b] =>
    match pyInt a, pyInt b with
    | some x, some y => some (x, y)
    | _, _ => none
  | _ => none

/-- `Activity.validate_hours`: format-checks both times, then re-parses them
with `int` on the split parts and range-checks hour and minute. -/
def validate_hours (a : Activity) : Bool × Str :=
  if ¬ validate_format_hour a.start_time then
    (false, "Invalid start time: '".toList ++ a.start_time ++
      "'. Use HH:MM format (00:00 - 23:59)".toList)
  else if ¬ validate_format_hour a.end_time then
    (false, "Invalid end time: '".toList ++ a.end_time ++
      "'. Use HH:MM format (00:00 - 23:59)".toList)
  else
    match parseSplitHM a.start_time, parseSplitHM a.end_time with
    | some (hs, ms), some (he, me) =>
      if ¬ (0 ≤ hs ∧ hs ≤ 23 ∧ 0 ≤ ms ∧ ms ≤ 59) then
        (false, "Start time out of range (00:00 - 23:59)".toList)
      else if ¬ (0 ≤ he ∧ he ≤ 23 ∧ 0 ≤ me ∧ me ≤ 59) then
        (false, "End time out of range (00:00 - 23:59)".toList)
      else (true, "Valid hours".toList)
    | _, _ => (false, "Error processing times".toList)

/-- Python whitespace as stripped by `str.strip()` (ASCII range). -/
def isPySpace (c : Char) : Bool :=
  c = ' ' ∨ c = '\t' ∨ c = '\n' ∨ c = '\r' ∨ c = '\x0b' ∨ c = '\x0c'

/-- `not s or s.strip() == ""`: the string is empty or all whitespace. -/
def isBlank (s : Str) : Bool := s.all isPySpace

/-- `Activity.validate_required_fields`. -/
def validate_required_fields (a : Activity) : Bool × Str :=
  if isBlank a.title then (false, "Title is required".toList)
  else if isBlank a.description then (false, "Description is required".toList)
  else if a.start_time = [] then (false, "Start time is required".toList)
  else if a.end_time = [] then (false, "End time is required".toList)
  else (true, "All fields complete".toList)

/-- The loop body of `Activity.validate_images`: walk the image list with
its 0-based position, failing at the first missing file or disallowed
extension. -/
def validate_images_from (fs : FileSystem) : List Str → Nat → Bool × Str
  | [], _ => (true, "Valid images".toList)
  | p :: rest, i =>
    if fs p = none then
      (false, "Image ".toList ++ natDigits (i + 1) ++ " not found: ".toList ++ p)
    else if ¬ FORMATS_ALLOW_IMAGE.contains (extLower p) then
      (false, "Image ".toList ++ natDigits (i + 1) ++ " with invalid format".toList)
    else validate_images_from fs rest (i + 1)

/-- `Activity.validate_images`: at most `MAX_IMAGES` images, each existing
with an allowed extension.  File sizes are not consulted. -/
def validate_images (fs : FileSystem) (a : Activity) : Bool × Str :=
  if a.images.length > MAX_IMAGES then
    (false, "Too many images (max: ".toList ++ natDigits MAX_IMAGES ++ ")".toList)
  else validate_images_from fs a.images 0

/-- `Activity.complete_validate`: required fields, then hours, then images,
stopping at the first failure. -/
def complete_validate (fs : FileSystem) (a : Activity) : Bool × Str :=
  let (valid, message) := validate_required_fields a
  if ¬ valid then (false, message)
  else
    let (valid, message) := validate_hours a
    if ¬ valid then (false, message)
    else
      let (valid, message) := validate_images fs a
      if ¬ valid then (false, message)
      else (true, "Valid activity".toList)

/-- A Python list comprehension `[f(x) for x in l]` over a fallible `f`:
the first failure (raised exception) aborts the whole comprehension. -/
def listComp (f : α → Option β) : List α → Option (List β)
  | [] => some []
  | x :: rest =>
    match f x, listComp f rest with
    | some y, some ys => some (y :: ys)
    | _, _ => none

/-- Python list indexing `l[i]`, `none` modelling the `IndexError` (negative
indices count from the end). -/
def pyIndex (l : List α) (i : Int) : Option α :=
  if 0 ≤ i then l.get? i.toNat
  else if 0 ≤ i + l.length then l.get? (i + l.length).toNat
  else none

/-- `Activity.delete_image`: bounds-checked `pop(index)`. -/
def delete_image (a : Activity) (index : Int) : Activity × Bool × Str :=
  if 0 ≤ index ∧ index < a.images.length then
    ({ a with images := a.images.eraseIdx index.toNat }, true,
      "Image deleted".toList)
  else (a, false, "Invalid index".toList)

/-- Python `set(a) == set(b)` on integer lists: same elements. -/
def setEq (a b : List Int) : Bool := a.all b.contains ∧ b.all a.contains

/-- The range list `list(range(n))` as Python `int`s. -/
def intRange (n : Nat) : List Int := (List.range n).map Int.ofNat

/-- `Activity.reorganize_images`: length check, set-equality check against
`range(len(images))`, then rebuild the list by indexing. -/
def reorganize_images (a : Activity) (new_order : List Int) :
    Activity × Bool × Str :=
  if new_order.length ≠ a.images.length then
    (a, false, "Number of indices doesn't match".toList)
  else if ¬ setEq new_order (intRange a.images.length) then
    (a, false, "Invalid indices".toList)
  else
    match listComp (pyIndex a.images) new_order with
    | some new_images => ({ a with images := new_images }, true,
        "Images reordered".toList)
    | none => (a, false, "Error reordering images".toList)

end Activity

/-- Modelled from the spec's wording of the shared duration rule: the
elapsed whole minutes from start to end, where an end not after the start
is moved to the following day (add 24 hours) before subtracting. -/
def specDurationMinutes (hs ms he me : Nat) : Nat :=
  (if 60 * he + me ≤ 60 * hs + ms then 60 * he + me + 1440 else 60 * he + me) -
    (60 * hs + ms)

/-- The spec-side duration of an activity in minutes: the overnight-wrap
difference of its parsed times (0 when either time does not parse). -/
def durationMinutesSpec (a : Activity) : Nat :=
  match strptimeHM a.start_time, strptimeHM a.end_time with
  | some (hs, ms), some (he, me) => specDurationMinutes hs ms he me
  | _, _ => 0

/-!
## Calendar dates (`datetime.date`)

Python `date` objects always hold a valid calendar date with year in
1..9999; `date.today()` is passed in explicitly wherever the Python code
calls it.
-/

structure PyDate where
  year : Nat
  month : Nat
  day : Nat
deriving DecidableEq, Repr

/-- Gregorian leap year. -/
def isLeap (y : Nat) : Bool := y % 4 = 0 ∧ (y % 100 ≠ 0 ∨ y % 400 = 0)

/-- Days in a month. -/
def daysInMonth (y m : Nat) : Nat :=
  if m = 2 then (if isLeap y then 29 else 28)
  else if m = 4 ∨ m = 6 ∨ m = 9 ∨ m = 11 then 30
  else 31

/-- The invariant every Python `date` object satisfies. -/
def ValidPyDate (d : PyDate) : Prop :=
  1 ≤ d.year ∧ d.year ≤ 9999 ∧ 1 ≤ d.month ∧ d.month ≤ 12 ∧
    1 ≤ d.day ∧ d.day ≤ daysInMonth d.year d.month

instance (d : PyDate) : Decidable (ValidPyDate d) := by
  unfold ValidPyDate; infer_instance

/-- Zero-padded 4-digit rendering (`%04d` for values up to 9999). -/
def pad4 (n : Nat) : Str :=
  [digitChar (n / 1000), digitChar (n / 100), digitChar (n / 10), digitChar n]

/-- Zero-padded 2-digit rendering (`%02d` for values up to 99). -/
def pad2 (n : Nat) : Str := [digitChar (n / 10), digitChar n]

/-- `date.isoformat()`: `"YYYY-MM-DD"`. -/
def isoformat (d : PyDate) : Str :=
  pad4 d.year ++ '-' :: pad2 d.month ++ '-' :: pad2 d.day

/-- `date.fromisoformat(s)` on the canonical `"YYYY-MM-DD"` layout: fixed
positions for the two dashes, all other characters decimal digits, and the
field values must form a real calendar date; `none` models the raised
`ValueError`. -/
def fromisoformat (s : Str) : Option PyDate :=
  match s with
  | [y1, y2, y3, y4, s1, m1, m2, s2, d1, d2] =>
    if isDig y1 ∧ isDig y2 ∧ isDig y3 ∧ isDig y4 ∧ s1 = '-' ∧
        isDig m1 ∧ isDig m2 ∧ s2 = '-' ∧ isDig d1 ∧ isDig d2 then
      let y := 1000 * digitVal y1 + 100 * digitVal y2 + 10 * digitVal y3 + digitVal y4
      let mo := 10 * digitVal m1 + digitVal m2
      let da := 10 * digitVal d1 + digitVal d2
      if 1 ≤ y ∧ 1 ≤ mo ∧ mo ≤ 12 ∧ 1 ≤ da ∧ da ≤ daysInMonth y mo then
        some ⟨y, mo, da⟩
      else none
    else none
  | _ => none

/-!
## The `Report` model (`src/models/report_model.py`)
-/

structure Report where
  responsible : Str
  student : Str
  date : PyDate
  entry_time : Str
  exit_time : Str
  activities : List Activity
  _instance_hours : Str
deriving DecidableEq, Repr

namespace Report

/-- `Report._validate_format_hour` (same body as the Activity one). -/
def validate_format_hour (hour : Str) : Bool :=
  if hour = [] then false else (strptimeHM hour).isSome

/-- `Report.calculate_instance_hours`: identical rule to
`Activity.calculate_duration` over entry/exit times. -/
def calculate_instance_hours (r : Report) : Report × Str :=
  if ¬ validate_format_hour r.entry_time then
    let d := "Invalid entry time".toList
    ({ r with _instance_hours := d }, d)
  else if ¬ validate_format_hour r.exit_time then
    let d := "Invalid exit time".toList
    ({ r with _instance_hours := d }, d)
  else
    match strptimeHM r.entry_time, strptimeHM r.exit_time with
    | some (hs, ms), some (he, me) =>
      let entry := hs * 3600 + ms * 60
      let exit := he * 3600 + me * 60
      let exit := if exit ≤ entry then exit + 86400 else exit
      let difference := exit - entry
      let d := Activity.formatHM (difference / 3600) (difference % 3600 / 60)
      ({ r with _instance_hours := d }, d)
    | _, _ =>
      -- unreachable: `validate_format_hour` succeeded on both times
      let d := "Calculate Error".toList
      ({ r with _instance_hours := d }, d)

/-- The `Report.instance_hours` property: recalculates only when the cache
is empty. -/
def instance_hours (r : Report) : Report × Str :=
  if r._instance_hours = [] then calculate_instance_hours r
  else (r, r._instance_hours)

/-- `Report.get_instance_hours_in_minutes` (same shape as
`Activity.get_duration_in_minutes`). -/
def get_instance_hours_in_minutes (r : Report) : Report × Int :=
  let r := if r._instance_hours = [] ∨ ¬ r._instance_hours.contains ':' then
    (calculate_instance_hours r).1 else r
  if ¬ r._instance_hours.contains ':' then (r, 0)
  else
    match splitOnChar ':' r._instance_hours with
    | [hs, ms] =>
      match pyInt hs, pyInt ms with
      | some h, some m => (r, h * 60 + m)
      | _, _ => (r, 0)
    | _ => (r, 0)

/-- `Report.__init__` with an explicit `report_date` argument and the
ambient `date.today()` value. -/
def mk' (responsible student : Str) (report_date : Option PyDate)
    (entry_time exit_time : Str) (activities : List Activity)
    (today : PyDate) : Report :=
  let r : Report :=
    ⟨responsible, student, report_date.getD today, entry_time, exit_time,
      activities, []⟩
  if entry_time ≠ [] ∧ exit_time ≠ [] then (calculate_instance_hours r).1
  else r

/-- `Report.calculate_total_activity_hours`: sum the activities'
`get_duration_in_minutes` values and reformat as `f"{total//60:02d}:{total%60:02d}"`
(Python floor division and modulo on `int`). -/
def calculate_total_activity_hours (r : Report) : Str :=
  let total_minutes :=
    (r.activities.map (fun a => (Activity.get_duration_in_minutes a).2)).sum
  fmt02i (Int.fdiv total_minutes 60) ++ ':' :: fmt02i (Int.fmod total_minutes 60)

/-- `Report.remove_activity`. -/
def remove_activity (r : Report) (index : Int) : Report × Bool × Str :=
  if 0 ≤ index ∧ index < r.activities.length then
    ({ r with activities := r.activities.eraseIdx index.toNat }, true,
      "Activity '".toList ++
        ((r.activities.get? index.toNat).map Activity.title).getD [] ++
        "' removed".toList)
  else (r, false, "Invalid index".toList)

/-- `Report.edit_activity`: bounds check, then validation of the new
activity, then wholesale replacement. -/
def edit_activity (fs : FileSystem) (r : Report) (index : Int)
    (updated_activity : Activity) : Report × Bool × Str :=
  if ¬ (0 ≤ index ∧ index < r.activities.length) then
    (r, false, "Invalid index".toList)
  else
    let (valid, message) := Activity.complete_validate fs updated_activity
    if ¬ valid then (r, false, "Invalid activity: ".toList ++ message)
    else
      ({ r with activities := r.activities.set index.toNat updated_activity },
        true, "Activity '".toList ++
          ((r.activities.get? index.toNat).map Activity.title).getD [] ++
          "' updated".toList)

/-- `Report.move_activity`: both indices bounds-checked, then
`pop(from)` / `insert(to)`. -/
def move_activity (r : Report) (from_index to_index : Int) :
    Report × Bool × Str :=
  if ¬ (0 ≤ from_index ∧ from_index < r.activities.length) then
    (r, false, "Invalid source index".toList)
  else if ¬ (0 ≤ to_index ∧ to_index < r.activities.length) then
    (r, false, "Invalid destination index".toList)
  else
    match r.activities.get? from_index.toNat with
    | some activity =>
      let acts := (r.activities.eraseIdx from_index.toNat).insertIdx
        to_index.toNat activity
      ({ r with activities := acts }, true,
        "Activity '".toList ++ activity.title ++ "' moved".toList)
    | none => (r, false, "Invalid source index".toList)

/-- `Report.validate_times` (same shape as `Activity.validate_hours`). -/
def validate_times (r : Report) : Bool × Str :=
  if ¬ validate_format_hour r.entry_time then
    (false, "Invalid entry time: '".toList ++ r.entry_time ++
      "'. Use HH:MM format (00:00 - 23:59)".toList)
  else if ¬ validate_format_hour r.exit_time then
    (false, "Invalid exit time: '".toList ++ r.exit_time ++
      "'. Use HH:MM format (00:00 - 23:59)".toList)
  else
    match Activity.parseSplitHM r.entry_time, Activity.parseSplitHM r.exit_time with
    | some (hs, ms), some (he, me) =>
      if ¬ (0 ≤ hs ∧ hs ≤ 23 ∧ 0 ≤ ms ∧ ms ≤ 59) then
        (false, "Entry time out of range (00:00 - 23:59)".toList)
      else if ¬ (0 ≤ he ∧ he ≤ 23 ∧ 0 ≤ me ∧ me ≤ 59) then
        (false, "Exit time out of range (00:00 - 23:59)".toList)
      else (true, "Valid times".toList)
    | _, _ => (false, "Error processing times".toList)

/-- `Report.validate_required_fields`.  A Python `date` object is always
truthy, so the `if not self.date` branch is unreachable here. -/
def validate_required_fields (r : Report) : Bool × Str :=
  if Activity.isBlank r.responsible then
    (false, "Responsible name is required".toList)
  else if Activity.isBlank r.student then
    (false, "Student name is required".toList)
  else if r.entry_time = [] then (false, "Entry time is required".toList)
  else if r.exit_time = [] then (false, "Exit time is required".toList)
  else (true, "All required fields complete".toList)

/-- The loop of `Report.validate_activities`: each activity's complete
validation, failing at the first invalid one with its 1-based position. -/
def validate_activities_from (fs : FileSystem) : List Activity → Nat → Bool × Str
  | [], _ => (true, "All activities valid".toList)
  | a :: rest, i =>
    let (valid, message) := Activity.complete_validate fs a
    if ¬ valid then
      (false, "Activity ".toList ++ natDigits (i + 1) ++ " invalid: ".toList ++
        message)
    else validate_activities_from fs rest (i + 1)

/-- `Report.validate_activities`: non-empty list, then every activity. -/
def validate_activities (fs : FileSystem) (r : Report) : Bool × Str :=
  if r.activities.length = 0 then
    (false, "Report must contain at least one activity".toList)
  else validate_activities_from fs r.activities 0

/-- `Report.complete_validate`: required fields, then times, then
activities, stopping at the first failure. -/
def complete_validate (fs : FileSystem) (r : Report) : Bool × Str :=
  let (valid, message) := validate_required_fields r
  if ¬ valid then (false, message)
  else
    let (valid, message) := validate_times r
    if ¬ valid then (false, message)
    else
      let (valid, message) := validate_activities fs r
      if ¬ valid then (false, message)
      else (true, "Valid report".toList)

/-- `Report._calculate_average_duration`: `"00:00"` for no activities,
otherwise floor-divided total minutes reformatted. -/
def calculate_average_duration (r : Report) : Str :=
  if r.activities = [] then "00:00".toList
  else
    let total_minutes :=
      (r.activities.map (fun a => (Activity.get_duration_in_minutes a).2)).sum
    let avg_minutes := Int.fdiv total_minutes r.activities.length
    fmt02i (Int.fdiv avg_minutes 60) ++ ':' :: fmt02i (Int.fmod avg_minutes 60)

end Report

/-!
## Serialization (`to_dict` / `from_dict`)

A Python dict is modelled as a record of optional fields: `none` for an
absent key.  `to_dict` always writes every key; `from_dict` reads with
`dict.get` defaults and truthiness checks, as the source does.

The Python `to_dict`/`get_statistics` calls also fill the private caches as
a side effect of reading the `duration` / `instance_hours` properties;
since that never changes any value placed in the produced dict, the dict
builders here are pure functions of the record.
-/

/-- The dict produced by `Activity.to_dict` / consumed by
`Activity.from_dict`. -/
structure ActivityDict where
  title : Option Str
  description : Option Str
  start_time : Option Str
  end_time : Option Str
  duration : Option Str
  images : Option (List Str)
  number_images : Option Nat
deriving DecidableEq, Repr

/-- The dict produced by `Report.get_statistics`. -/
structure Statistics where
  total_activities : Nat
  total_activity_hours : Str
  instance_hours : Str
  total_images : Nat
  activities_with_images : Nat
  average_activity_duration : Str
  longest_activity : Option Str
  shortest_activity : Option Str
deriving DecidableEq, Repr

/-- The dict produced by `Report.to_dict` / consumed by
`Report.from_dict`. -/
structure ReportDict where
  responsible : Option Str
  student : Option Str
  date : Option Str
  entry_time : Option Str
  exit_time : Option Str
  instance_hours : Option Str
  activities : Option (List ActivityDict)
  statistics : Option Statistics
deriving DecidableEq, Repr

namespace Activity

/-- `Activity.to_dict`. -/
def to_dict (a : Activity) : ActivityDict where
  title := some a.title
  description := some a.description
  start_time := some a.start_time
  end_time := some a.end_time
  duration := some (duration a).2
  images := some a.images
  number_images := some a.images.length

/-- `Activity.from_dict`: `dict.get` defaults (`''`, `'00:00'`) and a
truthiness test on `images`, then the constructor. -/
def from_dict (d : ActivityDict) : Activity :=
  let images := match d.images with
    | some l => if l ≠ [] then l else []
    | none => []
  mk' (d.title.getD []) (d.description.getD []) (d.start_time.getD "00:00".toList)
    (d.end_time.getD "00:00".toList) images

end Activity

namespace Report

/-- Python `max(l, key=f)` semantics: the first element with the maximal
key (`none` on an empty list, where Python raises). -/
def firstMaxBy (f : Activity → Int) (l : List Activity) : Option Activity :=
  l.foldl (fun best a =>
    match best with
    | none => some a
    | some b => if f a > f b then some a else some b) none

/-- Python `min(l, key=f)` semantics: the first element with the minimal
key. -/
def firstMinBy (f : Activity → Int) (l : List Activity) : Option Activity :=
  l.foldl (fun best a =>
    match best with
    | none => some a
    | some b => if f a < f b then some a else some b) none

/-- `Report.get_statistics`. -/
def get_statistics (r : Report) : Statistics where
  total_activities := r.activities.length
  total_activity_hours := calculate_total_activity_hours r
  instance_hours := (instance_hours r).2
  total_images := (r.activities.map (fun a => a.images.length)).sum
  activities_with_images :=
    (r.activities.filter (fun a => a.images.length > 0)).length
  average_activity_duration := calculate_average_duration r
  longest_activity :=
    (firstMaxBy (fun a => (Activity.get_duration_in_minutes a).2)
      r.activities).map Activity.title
  shortest_activity :=
    (firstMinBy (fun a => (Activity.get_duration_in_minutes a).2)
      r.activities).map Activity.title

/-- `Report.to_dict`. -/
def to_dict (r : Report) : ReportDict where
  responsible := some r.responsible
  student := some r.student
  date := some (isoformat r.date)
  entry_time := some r.entry_time
  exit_time := some r.exit_time
  instance_hours := some (instance_hours r).2
  activities := some (r.activities.map Activity.to_dict)
  statistics := some (get_statistics r)

/-- `Report.from_dict`: the `date` key is parsed when present and truthy,
substituting `date.today()` when `fromisoformat` raises; a missing or
falsy `activities` key yields an empty list; remaining keys use
`dict.get` defaults.  `today` is the ambient `date.today()` value. -/
def from_dict (d : ReportDict) (today : PyDate) : Report :=
  let report_date : Option PyDate :=
    match d.date with
    | some s => if s ≠ [] then some ((fromisoformat s).getD today) else none
    | none => none
  let activities : List Activity :=
    match d.activities with
    | some l => if l ≠ [] then l.map Activity.from_dict else []
    | none => []
  mk' (d.responsible.getD []) (d.student.getD []) report_date
    (d.entry_time.getD "00:00".toList) (d.exit_time.getD "00:00".toList)
    activities today

end Report

/-!
## Concrete fixtures used by the witnesses
-/

/-- A small filesystem: an oversized 11 MB JPEG, a small valid JPEG, and a
small valid PNG. -/
def exampleFs : FileSystem := fun p =>
  if p = "/img/big.jpg".toList then some 11534336
  else if p = "/img/ok.jpg".toList then some 2048
  else if p = "/img/ok2.png".toList then some 4096
  else none

/-- Activity 09:00-11:30 (duration "02:30"). -/
def exampleActivity1 : Activity :=
  Activity.mk' "Reading".toList "Docs review".toList "09:00".toList "11:30".toList []

/-- Activity 13:00-14:30 (duration "01:30"). -/
def exampleActivity2 : Activity :=
  Activity.mk' "Coding".toList "App work".toList "13:00".toList "14:30".toList []

/-- A report holding the two example activities. -/
def exampleReport : Report :=
  Report.mk' "Dr. Smith".toList "John Doe".toList (some ⟨2026, 10, 12⟩)
    "08:00".toList "17:00".toList [exampleActivity1, exampleActivity2]
    ⟨2026, 10, 12⟩

/-- A field-valid report with an empty activities list. -/
def exampleEmptyReport : Report :=
  Report.mk' "Dr. Smith".toList "John Doe".toList (some ⟨2026, 10, 12⟩)
    "08:00".toList "17:00".toList [] ⟨2026, 10, 12⟩

/-- An activity with two images for the reorder witness. -/
def exampleActivityImgs : Activity :=
  Activity.mk' "Photos".toList "With images".toList "09:00".toList "10:00".toList
    ["/img/ok.jpg".toList, "/img/ok2.png".toList]

/-!
## Supporting lemmas: digits, rendering, parsing
-/

lemma digitChar_facts (n : Nat) :
    isDig (digitChar n) = true ∧ digitVal (digitChar n) = n % 10 ∧
      digitChar n ≠ ':' ∧ digitChar n ≠ '-' := by
  unfold digitChar
  have h : n % 10 < 10 := Nat.mod_lt _ (by omega)
  set k := n % 10 with hk
  interval_cases k <;> exact ⟨by decide, by decide, by decide, by decide⟩

lemma isDig_digitVal_le (c : Char) (h : isDig c = true) : digitVal c ≤ 9 := by
  unfold isDig at h
  unfold digitVal
  simp only [decide_eq_true_eq, Bool.and_eq_true] at h
  omega

lemma isDig_ne_colon (c : Char) (h : isDig c = true) : c ≠ ':' := by
  intro e
  subst e
  simp [isDig] at h

lemma isDig_ne_minus (c : Char) (h : isDig c = true) : c ≠ '-' := by
  intro e
  subst e
  simp [isDig] at h

lemma natDigitsAux_mem_isDig (fuel : Nat) :
    ∀ n c, c ∈ natDigitsAux fuel n → isDig c = true := by
  induction fuel with
  | zero => intro n c hc; cases n <;> simp [natDigitsAux] at hc
  | succ f ih =>
    intro n c hc
    cases n with
    | zero => simp [natDigitsAux] at hc
    | succ m =>
      rw [natDigitsAux] at hc
      rcases List.mem_append.mp hc with h | h
      · exact ih _ _ h
      · have := List.mem_singleton.mp h
        subst this
        exact (digitChar_facts _).1

lemma natDigitsAux_foldl (fuel : Nat) :
    ∀ n, n ≤ fuel →
      (natDigitsAux fuel n).foldl (fun acc c => acc * 10 + digitVal c) 0 = n := by
  induction fuel with
  | zero => intro n hn; interval_cases n; simp [natDigitsAux]
  | succ f ih =>
    intro n hn
    cases n with
    | zero => simp [natDigitsAux]
    | succ m =>
      rw [natDigitsAux, List.foldl_append]
      have h1 : (m + 1) / 10 ≤ f := by
        have := Nat.div_lt_self (Nat.succ_pos m) (by omega : 1 < 10)
        omega
      rw [ih _ h1]
      simp only [List.foldl_cons, List.foldl_nil]
      rw [(digitChar_facts (m + 1)).2.1]
      omega

lemma natDigitsAux_ne_nil (fuel n : Nat) (h1 : 0 < n) (h2 : n ≤ fuel) :
    natDigitsAux fuel n ≠ [] := by
  cases fuel with
  | zero => omega
  | succ f =>
    cases n with
    | zero => omega
    | succ m => rw [natDigitsAux]; simp

lemma natDigits_mem_isDig (n : Nat) : ∀ c ∈ natDigits n, isDig c = true := by
  unfold natDigits
  split
  · intro c hc
    have := List.mem_singleton.mp hc
    subst this
    decide
  · exact fun c hc => natDigitsAux_mem_isDig n n c hc

lemma natDigits_ne_nil (n : Nat) : natDigits n ≠ [] := by
  unfold natDigits
  split
  · simp
  · exact natDigitsAux_ne_nil n n (by omega) le_rfl

lemma parseNatDigits_natDigits (n : Nat) : parseNatDigits (natDigits n) = some n := by
  unfold parseNatDigits
  rw [if_pos]
  · congr 1
    unfold natDigits
    split
    · simp only [List.foldl_cons, List.foldl_nil]
      have h0 : digitVal '0' = 0 := by decide
      omega
    · exact natDigitsAux_foldl n n le_rfl
  · refine ⟨natDigits_ne_nil n, ?_⟩
    rw [List.all_eq_true]
    exact natDigits_mem_isDig n

lemma pyInt_cons_of_ne_minus (c : Char) (rest : Str) (h : c ≠ '-') :
    pyInt (c :: rest) = (parseNatDigits (c :: rest)).map (fun n => (n : Int)) := by
  simp only [pyInt]
  rw [if_neg h]

lemma pyInt_natDigits (n : Nat) : pyInt (natDigits n) = some (n : Int) := by
  obtain ⟨c, rest, e⟩ := List.exists_cons_of_ne_nil (natDigits_ne_nil n)
  have hc : isDig c = true := by
    apply natDigits_mem_isDig n
    rw [e]; exact List.mem_cons_self _ _
  rw [e, pyInt_cons_of_ne_minus c rest (isDig_ne_minus c hc), ← e,
    parseNatDigits_natDigits]
  rfl

lemma fmt02_mem_isDig (n : Nat) : ∀ c ∈ fmt02 n, isDig c = true := by
  unfold fmt02
  split
  · intro c hc
    rcases List.mem_cons.mp hc with h | h
    · subst h; decide
    · have := List.mem_singleton.mp h
      subst this
      exact (digitChar_facts n).1
  · exact natDigits_mem_isDig n

lemma fmt02_ne_nil (n : Nat) : fmt02 n ≠ [] := by
  unfold fmt02
  split
  · simp
  · exact natDigits_ne_nil n

lemma pyInt_fmt02 (n : Nat) : pyInt (fmt02 n) = some (n : Int) := by
  unfold fmt02
  split
  · rename_i hlt
    rw [pyInt_cons_of_ne_minus _ _ (by decide)]
    unfold parseNatDigits
    rw [if_pos]
    · simp only [List.foldl_cons, List.foldl_nil, Option.map_some]
      rw [(digitChar_facts n).2.1]
      have h0 : digitVal '0' = 0 := by decide
      rw [h0]
      have hval : (0 * 10 + 0) * 10 + n % 10 = n := by omega
      rw [hval]
      simp
    · constructor
      · simp
      · rw [List.all_eq_true]
        intro c hc
        rcases List.mem_cons.mp hc with h | h
        · subst h; decide
        · have := List.mem_singleton.mp h
          subst this
          exact (digitChar_facts n).1
  · exact pyInt_natDigits n

lemma fmt02i_ofNat (n : Nat) : fmt02i (n : Int) = fmt02 n := by
  unfold fmt02i
  rw [if_neg (by omega)]
  simp

/-!
## Supporting lemmas: `splitOnChar`
-/

lemma splitOnChar_ne_nil (sep : Char) (l : Str) : splitOnChar sep l ≠ [] := by
  cases l with
  | nil => simp [splitOnChar]
  | cons c rest =>
    rw [splitOnChar]
    split <;> split <;> simp

lemma splitOnChar_not_mem (sep : Char) (l : Str) (h : sep ∉ l) :
    splitOnChar sep l = [l] := by
  induction l with
  | nil => rfl
  | cons c rest ih =>
    have hc : c ≠ sep := fun e => h (e ▸ List.mem_cons_self c rest)
    have hrest : sep ∉ rest := fun hr => h (List.mem_cons_of_mem c hr)
    rw [splitOnChar, ih hrest]
    simp [hc]

lemma splitOnChar_append_sep (sep : Char) (l1 l2 : Str) (h : sep ∉ l1) :
    splitOnChar sep (l1 ++ sep :: l2) = l1 :: splitOnChar sep l2 := by
  induction l1 with
  | nil =>
    simp only [List.nil_append]
    rw [splitOnChar]
    obtain ⟨hd, tl, e⟩ := List.exists_cons_of_ne_nil (splitOnChar_ne_nil sep l2)
    rw [e]
    simp [← e]
  | cons c rest ih =>
    have hc : c ≠ sep := fun e => h (e ▸ List.mem_cons_self c _)
    have hrest : sep ∉ rest := fun hr => h (List.mem_cons_of_mem c hr)
    simp only [List.cons_append]
    rw [splitOnChar, ih hrest]
    simp [hc]

lemma contains_eq_mem (l : Str) (c : Char) : l.contains c = true ↔ c ∈ l := by
  simp [List.contains]

/-!
## Supporting lemmas: `strptime` characterization
-/

lemma mem_pair_isDig {c1 c2 x : Char} (d1 : isDig c1 = true)
    (d2 : isDig c2 = true) (hx : x ∈ [c1, c2]) : isDig x = true := by
  rcases List.mem_cons.mp hx with rfl | hx2
  · exact d1
  · rcases List.mem_cons.mp hx2 with rfl | hx3
    · exact d2
    · simp at hx3

lemma mem_single_isDig {c1 x : Char} (d1 : isDig c1 = true)
    (hx : x ∈ [c1]) : isDig x = true := by
  rcases List.mem_cons.mp hx with rfl | hx2
  · exact d1
  · simp at hx2

lemma matchHour_some (l : Str) (h : Nat) (rest : Str)
    (hp : matchHour l = some (h, rest)) :
    (∃ c1 c2, l = c1 :: c2 :: rest ∧ isDig c1 = true ∧ isDig c2 = true ∧
      h = 10 * digitVal c1 + digitVal c2 ∧ h ≤ 23) ∨
    (∃ c1, l = c1 :: rest ∧ isDig c1 = true ∧ h = digitVal c1 ∧ h ≤ 9) := by
  match l with
  | [] => simp [matchHour] at hp
  | [c] =>
    rw [matchHour] at hp
    split at hp
    · right
      rename_i hd
      simp only [Option.some_inj, Prod.mk.injEq] at hp
      obtain ⟨e1, e2⟩ := hp
      exact ⟨c, by rw [← e2], hd, e1.symm, e1 ▸ isDig_digitVal_le c hd⟩
    · simp at hp
  | c1 :: c2 :: tail =>
    rw [matchHour] at hp
    split at hp
    · left
      rename_i hd
      simp only [Option.some_inj, Prod.mk.injEq] at hp
      exact ⟨c1, c2, by rw [hp.2], hd.1, hd.2.1, hp.1.symm, hp.1 ▸ hd.2.2⟩
    · split at hp
      · right
        rename_i hd
        simp only [Option.some_inj, Prod.mk.injEq] at hp
        exact ⟨c1, by rw [hp.2], hd, hp.1.symm,
          hp.1 ▸ isDig_digitVal_le c1 hd⟩
      · simp at hp

lemma matchMinute_some (l : Str) (m : Nat) (rest : Str)
    (hp : matchMinute l = some (m, rest)) :
    (∃ c1 c2, l = c1 :: c2 :: rest ∧ isDig c1 = true ∧ isDig c2 = true ∧
      m = 10 * digitVal c1 + digitVal c2 ∧ m ≤ 59) ∨
    (∃ c1, l = c1 :: rest ∧ isDig c1 = true ∧ m = digitVal c1 ∧ m ≤ 9) := by
  match l with
  | [] => simp [matchMinute] at hp
  | [c] =>
    rw [matchMinute] at hp
    split at hp
    · right
      rename_i hd
      simp only [Option.some_inj, Prod.mk.injEq] at hp
      obtain ⟨e1, e2⟩ := hp
      exact ⟨c, by rw [← e2], hd, e1.symm, e1 ▸ isDig_digitVal_le c hd⟩
    · simp at hp
  | c1 :: c2 :: tail =>
    rw [matchMinute] at hp
    split at hp
    · left
      rename_i hd
      simp only [Option.some_inj, Prod.mk.injEq] at hp
      have b1 := isDig_digitVal_le c1 hd.1
      have b2 := isDig_digitVal_le c2 hd.2.1
      refine ⟨c1, c2, by rw [hp.2], hd.1, hd.2.1, hp.1.symm, ?_⟩
      have := hd.2.2
      omega
    · split at hp
      · right
        rename_i hd
        simp only [Option.some_inj, Prod.mk.injEq] at hp
        exact ⟨c1, by rw [hp.2], hd, hp.1.symm,
          hp.1 ▸ isDig_digitVal_le c1 hd⟩
      · simp at hp

/-- Parsing a one- or two-digit list with `int`. -/
lemma parseNatDigits_one (c : Char) (h : isDig c = true) :
    parseNatDigits [c] = some (digitVal c) := by
  unfold parseNatDigits
  rw [if_pos]
  · simp
  · simp [h]

lemma parseNatDigits_two (c1 c2 : Char) (h1 : isDig c1 = true)
    (h2 : isDig c2 = true) :
    parseNatDigits [c1, c2] = some (10 * digitVal c1 + digitVal c2) := by
  unfold parseNatDigits
  rw [if_pos]
  · simp only [List.foldl_cons, List.foldl_nil, Option.some_inj]
    omega
  · simp [h1, h2]

/-- Structure of a string accepted by `strptime(s, "%H:%M")`: an hour part
and a minute part of one or two digits around a single colon, with the
parsed values in range. -/
lemma strptimeHM_shape (s : Str) (h m : Nat)
    (hp : strptimeHM s = some (h, m)) :
    ∃ hpart mpart, s = hpart ++ ':' :: mpart ∧
      (∀ c ∈ hpart, isDig c = true) ∧ (∀ c ∈ mpart, isDig c = true) ∧
      parseNatDigits hpart = some h ∧ parseNatDigits mpart = some m ∧
      h ≤ 23 ∧ m ≤ 59 := by
  unfold strptimeHM at hp
  split at hp
  · rename_i h' rest heq
    split at hp
    · rename_i m' heq2
      simp only [Option.some_inj, Prod.mk.injEq] at hp
      obtain ⟨eh, em⟩ := hp
      subst eh; subst em
      rcases matchHour_some _ _ _ heq with
        ⟨c1, c2, es, d1, d2, ev, eb⟩ | ⟨c1, es, d1, ev, eb⟩ <;>
        rcases matchMinute_some _ _ _ heq2 with
          ⟨e1, e2, fs, g1, g2, fv, fb⟩ | ⟨e1, fs, g1, fv, fb⟩
      · refine ⟨[c1, c2], [e1, e2], ?_, ?_, ?_, ?_, ?_, eb, fb⟩
        · rw [es, fs]; rfl
        · exact fun x hx => mem_pair_isDig d1 d2 hx
        · exact fun x hx => mem_pair_isDig g1 g2 hx
        · rw [parseNatDigits_two c1 c2 d1 d2, ev]
        · rw [parseNatDigits_two e1 e2 g1 g2, fv]
      · refine ⟨[c1, c2], [e1], ?_, ?_, ?_, ?_, ?_, eb, by omega⟩
        · rw [es, fs]; rfl
        · exact fun x hx => mem_pair_isDig d1 d2 hx
        · exact fun x hx => mem_single_isDig g1 hx
        · rw [parseNatDigits_two c1 c2 d1 d2, ev]
        · rw [parseNatDigits_one e1 g1, fv]
      · refine ⟨[c1], [e1, e2], ?_, ?_, ?_, ?_, ?_, by omega, fb⟩
        · rw [es, fs]; rfl
        · exact fun x hx => mem_single_isDig d1 hx
        · exact fun x hx => mem_pair_isDig g1 g2 hx
        · rw [parseNatDigits_one c1 d1, ev]
        · rw [parseNatDigits_two e1 e2 g1 g2, fv]
      · refine ⟨[c1], [e1], ?_, ?_, ?_, ?_, ?_, by omega, by omega⟩
        · rw [es, fs]; rfl
        · exact fun x hx => mem_single_isDig d1 hx
        · exact fun x hx => mem_single_isDig g1 hx
        · rw [parseNatDigits_one c1 d1, ev]
        · rw [parseNatDigits_one e1 g1, fv]
    · simp at hp
  · simp at hp


/-!
## Supporting lemmas: the duration string `formatHM`
-/

lemma formatHM_contains_colon (h m : Nat) :
    (Activity.formatHM h m).contains ':' = true := by
  rw [contains_eq_mem]
  unfold Activity.formatHM
  exact List.mem_append.mpr (Or.inr (List.mem_cons_self _ _))

lemma formatHM_ne_nil (h m : Nat) : Activity.formatHM h m ≠ [] := by
  unfold Activity.formatHM
  simp [fmt02_ne_nil]

lemma fmt02_not_mem_colon (n : Nat) : ':' ∉ fmt02 n := by
  intro hmem
  exact isDig_ne_colon ':' (fmt02_mem_isDig n ':' hmem) rfl

lemma splitOnChar_formatHM (h m : Nat) :
    splitOnChar ':' (Activity.formatHM h m) = [fmt02 h, fmt02 m] := by
  unfold Activity.formatHM
  rw [splitOnChar_append_sep ':' _ _ (fmt02_not_mem_colon h),
    splitOnChar_not_mem ':' _ (fmt02_not_mem_colon m)]

/-!
## Supporting lemmas: format validation and the duration calculation
-/

lemma validate_format_hour_of_some {s : Str} {x : Nat × Nat}
    (h : strptimeHM s = some x) : Activity.validate_format_hour s = true := by
  unfold Activity.validate_format_hour
  split
  · rename_i he
    rw [he] at h
    simp [strptimeHM, matchHour] at h
  · rw [h]; rfl

lemma validate_format_hour_exists {s : Str}
    (h : Activity.validate_format_hour s = true) :
    ∃ p : Nat × Nat, strptimeHM s = some p := by
  unfold Activity.validate_format_hour at h
  split at h
  · simp at h
  · exact Option.isSome_iff_exists.mp h

lemma report_validate_format_hour_eq (s : Str) :
    Report.validate_format_hour s = Activity.validate_format_hour s := rfl

lemma seconds_to_minutes (hs ms he me : Nat) :
    (if he * 3600 + me * 60 ≤ hs * 3600 + ms * 60 then
        he * 3600 + me * 60 + 86400 else he * 3600 + me * 60) -
      (hs * 3600 + ms * 60) = 60 * specDurationMinutes hs ms he me := by
  unfold specDurationMinutes
  split_ifs <;> omega

lemma calculate_duration_parsed (a : Activity) (hs ms he me : Nat)
    (h1 : strptimeHM a.start_time = some (hs, ms))
    (h2 : strptimeHM a.end_time = some (he, me)) :
    Activity.calculate_duration a =
      ({ a with _duration := Activity.formatHM (specDurationMinutes hs ms he me / 60) (specDurationMinutes hs ms he me % 60) },
        Activity.formatHM (specDurationMinutes hs ms he me / 60) (specDurationMinutes hs ms he me % 60)) := by
  unfold Activity.calculate_duration
  rw [if_neg (not_not_intro (validate_format_hour_of_some h1)),
    if_neg (not_not_intro (validate_format_hour_of_some h2)), h1, h2]
  dsimp only
  rw [seconds_to_minutes hs ms he me]
  have k1 : 60 * specDurationMinutes hs ms he me / 3600 =
      specDurationMinutes hs ms he me / 60 := by omega
  have k2 : 60 * specDurationMinutes hs ms he me % 3600 / 60 =
      specDurationMinutes hs ms he me % 60 := by omega
  rw [k1, k2]

lemma calculate_instance_hours_parsed (r : Report) (hs ms he me : Nat)
    (h1 : strptimeHM r.entry_time = some (hs, ms))
    (h2 : strptimeHM r.exit_time = some (he, me)) :
    Report.calculate_instance_hours r =
      ({ r with _instance_hours := Activity.formatHM (specDurationMinutes hs ms he me / 60) (specDurationMinutes hs ms he me % 60) },
        Activity.formatHM (specDurationMinutes hs ms he me / 60) (specDurationMinutes hs ms he me % 60)) := by
  unfold Report.calculate_instance_hours
  rw [report_validate_format_hour_eq,
    if_neg (not_not_intro (validate_format_hour_of_some h1)),
    report_validate_format_hour_eq,
    if_neg (not_not_intro (validate_format_hour_of_some h2)), h1, h2]
  dsimp only
  rw [seconds_to_minutes hs ms he me]
  have k1 : 60 * specDurationMinutes hs ms he me / 3600 =
      specDurationMinutes hs ms he me / 60 := by omega
  have k2 : 60 * specDurationMinutes hs ms he me % 3600 / 60 =
      specDurationMinutes hs ms he me % 60 := by omega
  rw [k1, k2]

lemma calculate_duration_invalid_start (a : Activity)
    (h : Activity.validate_format_hour a.start_time = false) :
    Activity.calculate_duration a =
      ({ a with _duration := "Invalid start time".toList },
        "Invalid start time".toList) := by
  unfold Activity.calculate_duration
  rw [if_pos (by simp [h])]

lemma calculate_duration_invalid_end (a : Activity)
    (h1 : Activity.validate_format_hour a.start_time = true)
    (h2 : Activity.validate_format_hour a.end_time = false) :
    Activity.calculate_duration a =
      ({ a with _duration := "Invalid end time".toList },
        "Invalid end time".toList) := by
  unfold Activity.calculate_duration
  rw [if_neg (by simp [h1]), if_pos (by simp [h2])]

lemma calculate_instance_hours_invalid_entry (r : Report)
    (h : Report.validate_format_hour r.entry_time = false) :
    Report.calculate_instance_hours r =
      ({ r with _instance_hours := "Invalid entry time".toList },
        "Invalid entry time".toList) := by
  unfold Report.calculate_instance_hours
  rw [if_pos (by simp [h])]

lemma calculate_instance_hours_invalid_exit (r : Report)
    (h1 : Report.validate_format_hour r.entry_time = true)
    (h2 : Report.validate_format_hour r.exit_time = false) :
    Report.calculate_instance_hours r =
      ({ r with _instance_hours := "Invalid exit time".toList },
        "Invalid exit time".toList) := by
  unfold Report.calculate_instance_hours
  rw [if_neg (by simp [h1]), if_pos (by simp [h2])]

lemma formatHM_mem_colon (h m : Nat) : ':' ∈ Activity.formatHM h m := by
  rw [← contains_eq_mem]
  exact formatHM_contains_colon h m

lemma get_duration_in_minutes_of_formatHM (a : Activity) (h m : Nat)
    (hd : a._duration = Activity.formatHM h m) :
    Activity.get_duration_in_minutes a = (a, ((h * 60 + m : Nat) : Int)) := by
  have hne : a._duration ≠ [] := by rw [hd]; exact formatHM_ne_nil h m
  have hmem : ':' ∈ a._duration := by rw [hd]; exact formatHM_mem_colon h m
  have hct : a._duration.contains ':' = true := by
    rw [contains_eq_mem]; exact hmem
  have hnot : ¬ (a._duration = [] ∨ ¬ a._duration.contains ':' = true) := by
    rintro (h1 | h2)
    · exact hne h1
    · exact h2 hct
  unfold Activity.get_duration_in_minutes
  rw [if_neg hnot]
  dsimp only
  rw [if_neg (not_not_intro hct)]
  rw [hd, splitOnChar_formatHM]
  dsimp only
  rw [pyInt_fmt02, pyInt_fmt02]
  dsimp only
  congr 1

lemma get_instance_hours_in_minutes_of_formatHM (r : Report) (h m : Nat)
    (hd : r._instance_hours = Activity.formatHM h m) :
    Report.get_instance_hours_in_minutes r = (r, ((h * 60 + m : Nat) : Int)) := by
  have hne : r._instance_hours ≠ [] := by rw [hd]; exact formatHM_ne_nil h m
  have hmem : ':' ∈ r._instance_hours := by rw [hd]; exact formatHM_mem_colon h m
  have hct : r._instance_hours.contains ':' = true := by
    rw [contains_eq_mem]; exact hmem
  have hnot : ¬ (r._instance_hours = [] ∨ ¬ r._instance_hours.contains ':' = true) := by
    rintro (h1 | h2)
    · exact hne h1
    · exact h2 hct
  unfold Report.get_instance_hours_in_minutes
  rw [if_neg hnot]
  dsimp only
  rw [if_neg (not_not_intro hct)]
  rw [hd, splitOnChar_formatHM]
  dsimp only
  rw [pyInt_fmt02, pyInt_fmt02]
  dsimp only
  congr 1

/-!
## Supporting lemmas: `validate_hours` / `validate_times`
-/

lemma parseNatDigits_ne_nil {l : Str} {n : Nat}
    (h : parseNatDigits l = some n) : l ≠ [] := by
  intro e
  subst e
  simp [parseNatDigits] at h

lemma pyInt_of_parse {l : Str} {n : Nat} (hall : ∀ c ∈ l, isDig c = true)
    (hp : parseNatDigits l = some n) : pyInt l = some (n : Int) := by
  obtain ⟨c, rest, e⟩ := List.exists_cons_of_ne_nil (parseNatDigits_ne_nil hp)
  subst e
  rw [pyInt_cons_of_ne_minus c rest
    (isDig_ne_minus c (hall c (List.mem_cons_self c rest))), hp]
  rfl

lemma parseSplitHM_of_strptime {s : Str} {h m : Nat}
    (hp : strptimeHM s = some (h, m)) :
    Activity.parseSplitHM s = some ((h : Int), (m : Int)) := by
  obtain ⟨hpart, mpart, es, hd, md, ph, pm, _, _⟩ := strptimeHM_shape s h m hp
  subst es
  unfold Activity.parseSplitHM
  have hnc : ':' ∉ hpart := fun hmem => isDig_ne_colon ':' (hd ':' hmem) rfl
  have mnc : ':' ∉ mpart := fun hmem => isDig_ne_colon ':' (md ':' hmem) rfl
  rw [splitOnChar_append_sep ':' hpart mpart hnc,
    splitOnChar_not_mem ':' mpart mnc]
  dsimp only
  rw [pyInt_of_parse hd ph, pyInt_of_parse md pm]

lemma strptimeHM_bounds {s : Str} {h m : Nat}
    (hp : strptimeHM s = some (h, m)) : h ≤ 23 ∧ m ≤ 59 := by
  obtain ⟨_, _, _, _, _, _, _, hb, mb⟩ := strptimeHM_shape s h m hp
  exact ⟨hb, mb⟩

lemma validate_hours_true_iff (a : Activity) :
    (Activity.validate_hours a).1 = true ↔
      Activity.validate_format_hour a.start_time = true ∧
      Activity.validate_format_hour a.end_time = true := by
  constructor
  · intro hv
    unfold Activity.validate_hours at hv
    split at hv
    · simp at hv
    · split at hv
      · simp at hv
      · rename_i hn1 hn2
        exact ⟨not_not.mp (by exact_mod_cast hn1),
          not_not.mp (by exact_mod_cast hn2)⟩
  · rintro ⟨h1, h2⟩
    obtain ⟨⟨hs, ms⟩, e1⟩ := validate_format_hour_exists h1
    obtain ⟨⟨he, me⟩, e2⟩ := validate_format_hour_exists h2
    obtain ⟨hb1, mb1⟩ := strptimeHM_bounds e1
    obtain ⟨hb2, mb2⟩ := strptimeHM_bounds e2
    unfold Activity.validate_hours
    rw [if_neg (not_not_intro h1), if_neg (not_not_intro h2),
      parseSplitHM_of_strptime e1, parseSplitHM_of_strptime e2]
    dsimp only
    rw [if_neg, if_neg]
    · rw [not_not]
      exact ⟨by omega, by omega, by omega, by omega⟩
    · rw [not_not]
      exact ⟨by omega, by omega, by omega, by omega⟩

lemma validate_times_true_iff (r : Report) :
    (Report.validate_times r).1 = true ↔
      Report.validate_format_hour r.entry_time = true ∧
      Report.validate_format_hour r.exit_time = true := by
  constructor
  · intro hv
    unfold Report.validate_times at hv
    split at hv
    · simp at hv
    · split at hv
      · simp at hv
      · rename_i hn1 hn2
        exact ⟨not_not.mp (by exact_mod_cast hn1),
          not_not.mp (by exact_mod_cast hn2)⟩
  · rintro ⟨h1, h2⟩
    rw [report_validate_format_hour_eq] at h1 h2
    obtain ⟨⟨hs, ms⟩, e1⟩ := validate_format_hour_exists h1
    obtain ⟨⟨he, me⟩, e2⟩ := validate_format_hour_exists h2
    obtain ⟨hb1, mb1⟩ := strptimeHM_bounds e1
    obtain ⟨hb2, mb2⟩ := strptimeHM_bounds e2
    unfold Report.validate_times
    rw [report_validate_format_hour_eq, if_neg (not_not_intro h1),
      report_validate_format_hour_eq, if_neg (not_not_intro h2),
      parseSplitHM_of_strptime e1, parseSplitHM_of_strptime e2]
    dsimp only
    rw [if_neg, if_neg]
    · rw [not_not]
      exact ⟨by omega, by omega, by omega, by omega⟩
    · rw [not_not]
      exact ⟨by omega, by omega, by omega, by omega⟩

/-!
## Supporting lemmas: blank strings
-/

lemma isPySpace_of_isDig (c : Char) (h : isDig c = true) :
    Activity.isPySpace c = false := by
  by_contra hne
  have ht : Activity.isPySpace c = true := by
    cases hb : Activity.isPySpace c
    · exact absurd hb hne
    · rfl
  unfold Activity.isPySpace at ht
  simp only [decide_eq_true_eq] at ht
  rcases ht with e | e | e | e | e | e <;> subst e <;> simp [isDig] at h

lemma isBlank_false_of_strptime {s : Str} {h m : Nat}
    (hp : strptimeHM s = some (h, m)) : Activity.isBlank s = false := by
  obtain ⟨hpart, mpart, es, hd, _, ph, _, _, _⟩ := strptimeHM_shape s h m hp
  obtain ⟨c, rest, e⟩ := List.exists_cons_of_ne_nil (parseNatDigits_ne_nil ph)
  subst e
  subst es
  have hc : isDig c = true := hd c (List.mem_cons_self c rest)
  unfold Activity.isBlank
  simp only [List.cons_append, List.all_cons, Bool.and_eq_false_iff]
  left
  exact isPySpace_of_isDig c hc

/-!
## Supporting lemmas: composed validation
-/

lemma activity_required_true_iff (a : Activity) :
    (Activity.validate_required_fields a).1 = true ↔
      Activity.isBlank a.title = false ∧ Activity.isBlank a.description = false ∧
      a.start_time ≠ [] ∧ a.end_time ≠ [] := by
  unfold Activity.validate_required_fields
  split_ifs with h1 h2 h3 h4 <;> simp_all

lemma report_required_true_iff (r : Report) :
    (Report.validate_required_fields r).1 = true ↔
      Activity.isBlank r.responsible = false ∧ Activity.isBlank r.student = false ∧
      r.entry_time ≠ [] ∧ r.exit_time ≠ [] := by
  unfold Report.validate_required_fields
  split_ifs with h1 h2 h3 h4 <;> simp_all

lemma activity_complete_validate_true_iff (fs : FileSystem) (a : Activity) :
    (Activity.complete_validate fs a).1 = true ↔
      (Activity.validate_required_fields a).1 = true ∧
      (Activity.validate_hours a).1 = true ∧
      (Activity.validate_images fs a).1 = true := by
  unfold Activity.complete_validate
  rcases h1 : Activity.validate_required_fields a with ⟨v1, m1⟩
  rcases h2 : Activity.validate_hours a with ⟨v2, m2⟩
  rcases h3 : Activity.validate_images fs a with ⟨v3, m3⟩
  dsimp only
  cases v1 <;> cases v2 <;> cases v3 <;> simp

lemma report_complete_validate_true_iff (fs : FileSystem) (r : Report) :
    (Report.complete_validate fs r).1 = true ↔
      (Report.validate_required_fields r).1 = true ∧
      (Report.validate_times r).1 = true ∧
      (Report.validate_activities fs r).1 = true := by
  unfold Report.complete_validate
  rcases h1 : Report.validate_required_fields r with ⟨v1, m1⟩
  rcases h2 : Report.validate_times r with ⟨v2, m2⟩
  rcases h3 : Report.validate_activities fs r with ⟨v3, m3⟩
  dsimp only
  cases v1 <;> cases v2 <;> cases v3 <;> simp

lemma validate_activities_from_true (fs : FileSystem) (l : List Activity) :
    ∀ i, (Report.validate_activities_from fs l i).1 = true ↔
      ∀ a ∈ l, (Activity.complete_validate fs a).1 = true := by
  induction l with
  | nil => intro i; simp [Report.validate_activities_from]
  | cons a rest ih =>
    intro i
    rw [Report.validate_activities_from]
    rcases hca : Activity.complete_validate fs a with ⟨v, msg⟩
    dsimp only
    cases v
    · simp [hca]
    · simp [hca, ih (i + 1)]

lemma validate_activities_true_iff (fs : FileSystem) (r : Report) :
    (Report.validate_activities fs r).1 = true ↔
      r.activities ≠ [] ∧
      ∀ a ∈ r.activities, (Activity.complete_validate fs a).1 = true := by
  unfold Report.validate_activities
  split
  · rename_i hlen
    simp_all [List.length_eq_zero]
  · rename_i hlen
    rw [validate_activities_from_true fs r.activities 0]
    constructor
    · intro hall
      refine ⟨?_, hall⟩
      intro e
      rw [e] at hlen
      simp at hlen
    · intro hh
      exact hh.2

lemma validate_images_from_true (fs : FileSystem) (l : List Str) :
    ∀ i, (Activity.validate_images_from fs l i).1 = true ↔
      ∀ p ∈ l, (fs p).isSome = true ∧
        Activity.FORMATS_ALLOW_IMAGE.contains (extLower p) = true := by
  induction l with
  | nil => intro i; simp [Activity.validate_images_from]
  | cons p rest ih =>
    intro i
    rw [Activity.validate_images_from]
    split
    · rename_i hnone
      simp [hnone]
    · rename_i hsome
      split
      · rename_i hext
        simp only [Bool.false_eq_true, false_iff]
        intro hall
        exact hext (hall p (List.mem_cons_self p rest)).2
      · rename_i hext
        rw [ih (i + 1)]
        constructor
        · intro hall q hq
          rcases List.mem_cons.mp hq with rfl | hq2
          · exact ⟨Option.ne_none_iff_isSome.mp hsome, not_not.mp hext⟩
          · exact hall q hq2
        · intro hall q hq
          exact hall q (List.mem_cons_of_mem p hq)

lemma validate_images_true_iff (fs : FileSystem) (a : Activity) :
    (Activity.validate_images fs a).1 = true ↔
      a.images.length ≤ Activity.MAX_IMAGES ∧
      ∀ p ∈ a.images, (fs p).isSome = true ∧
        Activity.FORMATS_ALLOW_IMAGE.contains (extLower p) = true := by
  unfold Activity.validate_images
  split
  · rename_i hlen
    simp only [Bool.false_eq_true, false_iff]
    intro hc
    omega
  · rename_i hlen
    rw [validate_images_from_true fs a.images 0]
    simp only [iff_and_self]
    intro _
    omega

/-!
## Supporting lemmas: field preservation
-/

lemma calculate_duration_fst (a : Activity) :
    (Activity.calculate_duration a).1 =
      { a with _duration := (Activity.calculate_duration a).2 } := by
  unfold Activity.calculate_duration
  split
  · rfl
  · split
    · rfl
    · split <;> rfl

lemma calculate_instance_hours_fst (r : Report) :
    (Report.calculate_instance_hours r).1 =
      { r with _instance_hours := (Report.calculate_instance_hours r).2 } := by
  unfold Report.calculate_instance_hours
  split
  · rfl
  · split
    · rfl
    · split <;> rfl

lemma activity_mk_fields (t d s e : Str) (imgs : List Str) :
    (Activity.mk' t d s e imgs).title = t ∧
    (Activity.mk' t d s e imgs).description = d ∧
    (Activity.mk' t d s e imgs).start_time = s ∧
    (Activity.mk' t d s e imgs).end_time = e ∧
    (Activity.mk' t d s e imgs).images = imgs := by
  unfold Activity.mk'
  split
  · rw [calculate_duration_fst]
    exact ⟨rfl, rfl, rfl, rfl, rfl⟩
  · exact ⟨rfl, rfl, rfl, rfl, rfl⟩

lemma report_mk_fields (rs st : Str) (rd : Option PyDate) (en ex : Str)
    (acts : List Activity) (today : PyDate) :
    (Report.mk' rs st rd en ex acts today).responsible = rs ∧
    (Report.mk' rs st rd en ex acts today).student = st ∧
    (Report.mk' rs st rd en ex acts today).date = rd.getD today ∧
    (Report.mk' rs st rd en ex acts today).entry_time = en ∧
    (Report.mk' rs st rd en ex acts today).exit_time = ex ∧
    (Report.mk' rs st rd en ex acts today).activities = acts := by
  unfold Report.mk'
  split
  · rw [calculate_instance_hours_fst]
    exact ⟨rfl, rfl, rfl, rfl, rfl, rfl⟩
  · exact ⟨rfl, rfl, rfl, rfl, rfl, rfl⟩

lemma activity_from_to_dict (a : Activity) :
    (Activity.from_dict (Activity.to_dict a)).title = a.title ∧
    (Activity.from_dict (Activity.to_dict a)).start_time = a.start_time ∧
    (Activity.from_dict (Activity.to_dict a)).end_time = a.end_time ∧
    (Activity.from_dict (Activity.to_dict a)).images = a.images := by
  unfold Activity.from_dict Activity.to_dict
  dsimp only [Option.getD_some]
  have himg : (if a.images ≠ [] then a.images else []) = a.images := by
    split
    · rfl
    · rename_i he
      rw [not_not.mp he]
  rw [himg]
  obtain ⟨e1, e2, e3, e4, e5⟩ :=
    activity_mk_fields a.title a.description a.start_time a.end_time a.images
  exact ⟨e1, e3, e4, e5⟩

/-!
## Supporting lemmas: ISO date round trip
-/

lemma fromisoformat_isoformat (d : PyDate) (h : ValidPyDate d) :
    fromisoformat (isoformat d) = some d := by
  obtain ⟨h1, h2, h3, h4, h5, h6⟩ := h
  have dig : ∀ n : Nat, isDig (digitChar n) = true := fun n => (digitChar_facts n).1
  unfold isoformat pad4 pad2
  simp only [List.cons_append, List.nil_append]
  unfold fromisoformat
  split
  case h_2 hne =>
    exact absurd rfl (hne _ _ _ _ _ _ _ _ _ _)
  case h_1 y1 y2 y3 y4 s1 m1 m2 s2 d1 d2 heq =>
    simp only [List.cons.injEq, and_true] at heq
    obtain ⟨rfl, rfl, rfl, rfl, rfl, rfl, rfl, rfl, rfl, rfl⟩ := heq
    rw [if_pos ⟨dig _, dig _, dig _, dig _, rfl, dig _, dig _, rfl, dig _, dig _⟩]
    dsimp only
    simp only [(digitChar_facts (d.year / 1000)).2.1,
      (digitChar_facts (d.year / 100)).2.1, (digitChar_facts (d.year / 10)).2.1,
      (digitChar_facts d.year).2.1, (digitChar_facts (d.month / 10)).2.1,
      (digitChar_facts d.month).2.1, (digitChar_facts (d.day / 10)).2.1,
      (digitChar_facts d.day).2.1]
    have hy : 1000 * (d.year / 1000 % 10) + 100 * (d.year / 100 % 10) +
        10 * (d.year / 10 % 10) + d.year % 10 = d.year := by omega
    have hm : 10 * (d.month / 10 % 10) + d.month % 10 = d.month := by omega
    have hdm : daysInMonth d.year d.month ≤ 31 := by
      unfold daysInMonth
      split_ifs <;> omega
    have hd2 : 10 * (d.day / 10 % 10) + d.day % 10 = d.day := by omega
    rw [hy, hm, hd2]
    rw [if_pos ⟨h1, h3, h4, h5, h6⟩]

lemma isoformat_ne_nil (d : PyDate) : isoformat d ≠ [] := by
  unfold isoformat pad4
  simp

/-!
## Supporting lemmas: images, first failure
-/

lemma validate_images_from_first_bad (fs : FileSystem) (p : Str)
    (post : List Str) :
    ∀ (pre : List Str) (i : Nat),
    (∀ q ∈ pre, (fs q).isSome = true ∧
      Activity.FORMATS_ALLOW_IMAGE.contains (extLower q) = true) →
    (fs p = none ∨ Activity.FORMATS_ALLOW_IMAGE.contains (extLower p) = false) →
    Activity.validate_images_from fs (pre ++ p :: post) i =
      (false, if fs p = none then
          "Image ".toList ++ natDigits (i + pre.length + 1) ++ " not found: ".toList ++ p
        else
          "Image ".toList ++ natDigits (i + pre.length + 1) ++ " with invalid format".toList) := by
  intro pre
  induction pre with
  | nil =>
    intro i _ hbad
    simp only [List.nil_append, List.length_nil, Nat.add_zero]
    rw [Activity.validate_images_from]
    rcases hfs : fs p with _ | sz
    · rw [if_pos rfl, if_pos rfl]
    · rw [if_neg (by simp)]
      rcases hbad with hb | hb
      · rw [hfs] at hb; simp at hb
      · rw [if_pos (by rw [hb]; simp), if_neg (by simp)]
  | cons q pre2 ih =>
    intro i hgood hbad
    have hq := hgood q (List.mem_cons_self q pre2)
    simp only [List.cons_append]
    rw [Activity.validate_images_from]
    rw [if_neg (by rw [← Option.ne_none_iff_isSome] at hq; exact hq.1)]
    rw [if_neg (not_not_intro hq.2)]
    rw [ih (i + 1) (fun x hx => hgood x (List.mem_cons_of_mem q hx)) hbad]
    have harith : i + 1 + pre2.length + 1 = i + (q :: pre2).length + 1 := by
      simp [List.length_cons]
      omega
    rw [harith]

/-!
## Supporting lemmas: the zero-activity validation message
-/

lemma report_complete_validate_empty_msg (fs : FileSystem) (r : Report)
    (hreq : (Report.validate_required_fields r).1 = true)
    (htimes : (Report.validate_times r).1 = true)
    (hact : r.activities = []) :
    Report.complete_validate fs r =
      (false, "Report must contain at least one activity".toList) := by
  unfold Report.complete_validate
  rcases h1 : Report.validate_required_fields r with ⟨v1, m1⟩
  rcases h2 : Report.validate_times r with ⟨v2, m2⟩
  rw [h1] at hreq
  rw [h2] at htimes
  have hv1 : v1 = true := by simpa using hreq
  have hv2 : v2 = true := by simpa using htimes
  subst hv1
  subst hv2
  have h3 : Report.validate_activities fs r =
      (false, "Report must contain at least one activity".toList) := by
    unfold Report.validate_activities
    rw [if_pos (by rw [hact]; rfl)]
  rw [h3]
  simp

/-!
## Supporting lemmas: list comprehension and permutations
-/

lemma listComp_eq_map {α β : Type} (f : α → Option β) (g : α → β)
    (l : List α) (h : ∀ x ∈ l, f x = some (g x)) :
    Activity.listComp f l = some (l.map g) := by
  induction l with
  | nil => rfl
  | cons x rest ih =>
    rw [Activity.listComp, h x (List.mem_cons_self x rest),
      ih (fun y hy => h y (List.mem_cons_of_mem x hy))]
    rfl

lemma intRange_length (n : Nat) : (Activity.intRange n).length = n := by
  simp [Activity.intRange]

lemma intRange_nodup (n : Nat) : (Activity.intRange n).Nodup := by
  apply List.Nodup.map
  · intro a b hab
    exact Int.ofNat.inj hab
  · exact List.nodup_range n

lemma intRange_mem_iff (n : Nat) (i : Int) :
    i ∈ Activity.intRange n ↔ 0 ≤ i ∧ i < n := by
  unfold Activity.intRange
  simp only [List.mem_map, List.mem_range, Int.ofNat_eq_natCast]
  constructor
  · rintro ⟨j, hj, rfl⟩
    constructor
    · omega
    · exact_mod_cast hj
  · rintro ⟨hge, hlt⟩
    refine ⟨i.toNat, ?_, ?_⟩
    · omega
    · omega

lemma setEq_true_iff (a b : List Int) :
    Activity.setEq a b = true ↔ (∀ x ∈ a, x ∈ b) ∧ ∀ x ∈ b, x ∈ a := by
  unfold Activity.setEq
  simp [List.all_eq_true]

/-!
## Supporting lemmas: duration sums
-/

lemma get_duration_settled (a : Activity)
    (h1 : (strptimeHM a.start_time).isSome = true)
    (h2 : (strptimeHM a.end_time).isSome = true)
    (hd : a._duration = (Activity.calculate_duration a).2) :
    (Activity.get_duration_in_minutes a).2 = ((durationMinutesSpec a : Nat) : Int) := by
  obtain ⟨⟨hs, ms⟩, e1⟩ := Option.isSome_iff_exists.mp h1
  obtain ⟨⟨he, me⟩, e2⟩ := Option.isSome_iff_exists.mp h2
  have hcd := calculate_duration_parsed a hs ms he me e1 e2
  have hdd : a._duration =
      Activity.formatHM (specDurationMinutes hs ms he me / 60)
        (specDurationMinutes hs ms he me % 60) := by
    rw [hd, hcd]
  rw [get_duration_in_minutes_of_formatHM a _ _ hdd]
  have hspec : durationMinutesSpec a = specDurationMinutes hs ms he me := by
    unfold durationMinutesSpec
    rw [e1, e2]
  rw [hspec]
  have heq : specDurationMinutes hs ms he me / 60 * 60 +
      specDurationMinutes hs ms he me % 60 = specDurationMinutes hs ms he me := by
    omega
  rw [heq]

lemma sum_duration_minutes (l : List Activity)
    (h : ∀ a ∈ l, (Activity.get_duration_in_minutes a).2 =
      ((durationMinutesSpec a : Nat) : Int)) :
    (l.map (fun a => (Activity.get_duration_in_minutes a).2)).sum =
      (((l.map durationMinutesSpec).sum : Nat) : Int) := by
  induction l with
  | nil => rfl
  | cons a rest ih =>
    rw [List.map_cons, List.sum_cons, List.map_cons, List.sum_cons,
      ih (fun x hx => h x (List.mem_cons_of_mem a hx)),
      h a (List.mem_cons_self a rest)]
    push_cast
    ring

lemma total_format (T : Nat) :
    fmt02i (Int.fdiv (T : Int) 60) ++ ':' :: fmt02i (Int.fmod (T : Int) 60) =
      Activity.formatHM (T / 60) (T % 60) := by
  have h1 : (T : Int).fdiv 60 = ((T / 60 : Nat) : Int) := by
    have h := (Int.ofNat_fdiv T 60).symm
    exact_mod_cast h
  have h2 : (T : Int).fmod 60 = ((T % 60 : Nat) : Int) := by
    have h := (Int.ofNat_fmod T 60).symm
    exact_mod_cast h
  rw [h1, h2, fmt02i_ofNat, fmt02i_ofNat]
  rfl

/-!
## Claim theorems
-/

/-- C1: for every pair of well-formed 24-hour "HH:MM" strings, both
`Activity.calculate_duration` (over start/end) and
`Report.calculate_instance_hours` (over entry/exit) return end minus start
in whole minutes — with 24 hours added to the end when end ≤ start, so the
result is never negative and the hour field may exceed 23 — formatted as
zero-padded "HH:MM". -/
theorem C1_duration_rule :
    (∀ (a : Activity) (hs ms he me : Nat),
      strptimeHM a.start_time = some (hs, ms) →
      strptimeHM a.end_time = some (he, me) →
      (Activity.calculate_duration a).2 =
        Activity.formatHM (specDurationMinutes hs ms he me / 60)
          (specDurationMinutes hs ms he me % 60)) ∧
    (∀ (r : Report) (hs ms he me : Nat),
      strptimeHM r.entry_time = some (hs, ms) →
      strptimeHM r.exit_time = some (he, me) →
      (Report.calculate_instance_hours r).2 =
        Activity.formatHM (specDurationMinutes hs ms he me / 60)
          (specDurationMinutes hs ms he me % 60)) := by
  constructor
  · intro a hs ms he me h1 h2
    rw [calculate_duration_parsed a hs ms he me h1 h2]
  · intro r hs ms he me h1 h2
    rw [calculate_instance_hours_parsed r hs ms he me h1 h2]

/-- Witness for C1 at the spec's concrete examples: 09:00-11:30 gives
"02:30" and the overnight pair 23:00-01:00 gives "02:00". -/
theorem C1_duration_rule_witness :
    (Activity.calculate_duration exampleActivity1).2 = "02:30".toList ∧
    (Report.calculate_instance_hours ( Report.mk' "R".toList "S".toList none
      "23:00".toList "01:00".toList [] ⟨2026, 10, 12⟩)).2 = "02:00".toList := by
  constructor
  · rw [C1_duration_rule.1 exampleActivity1 9 0 11 30 (by decide) (by decide)]
    decide
  · rw [C1_duration_rule.2 _ 23 0 1 0 (by decide) (by decide)]
    decide

lemma get_duration_in_minutes_no_colon (a : Activity)
    (hnc : a._duration.contains ':' = false)
    (hrecalc : (Activity.calculate_duration a).1._duration.contains ':' = false) :
    (Activity.get_duration_in_minutes a).2 = 0 := by
  unfold Activity.get_duration_in_minutes
  rw [if_pos (Or.inr (by rw [hnc]; simp))]
  rw [if_pos (by rw [hrecalc]; simp)]

lemma get_instance_hours_in_minutes_no_colon (r : Report)
    (hnc : r._instance_hours.contains ':' = false)
    (hrecalc : (Report.calculate_instance_hours r).1._instance_hours.contains ':' = false) :
    (Report.get_instance_hours_in_minutes r).2 = 0 := by
  unfold Report.get_instance_hours_in_minutes
  rw [if_pos (Or.inr (by rw [hnc]; simp))]
  rw [if_pos (by rw [hrecalc]; simp)]

/-- C2: when either time fails to parse as 24-hour "HH:MM", the duration /
instance-hours calculation stores and returns a sentinel error string
instead of raising, and extracting minutes from that state returns 0. -/
theorem C2_sentinel :
    (∀ a : Activity,
      ¬ (Activity.validate_format_hour a.start_time = true ∧
        Activity.validate_format_hour a.end_time = true) →
      (Activity.calculate_duration a).1._duration = (Activity.calculate_duration a).2 ∧
      ((Activity.calculate_duration a).2 = "Invalid start time".toList ∨
        (Activity.calculate_duration a).2 = "Invalid end time".toList) ∧
      (Activity.get_duration_in_minutes (Activity.calculate_duration a).1).2 = 0) ∧
    (∀ r : Report,
      ¬ (Report.validate_format_hour r.entry_time = true ∧
        Report.validate_format_hour r.exit_time = true) →
      (Report.calculate_instance_hours r).1._instance_hours = (Report.calculate_instance_hours r).2 ∧
      ((Report.calculate_instance_hours r).2 = "Invalid entry time".toList ∨
        (Report.calculate_instance_hours r).2 = "Invalid exit time".toList) ∧
      (Report.get_instance_hours_in_minutes (Report.calculate_instance_hours r).1).2 = 0) := by
  constructor
  · intro a hbad
    rcases hs : Activity.validate_format_hour a.start_time with _ | _
    · have hcd := calculate_duration_invalid_start a hs
      rw [hcd]
      refine ⟨rfl, Or.inl rfl, ?_⟩
      have hs2 : Activity.validate_format_hour
          ({ a with _duration := "Invalid start time".toList } : Activity).start_time = false := hs
      apply get_duration_in_minutes_no_colon
      · exact (by decide : ("Invalid start time".toList).contains ':' = false)
      · rw [calculate_duration_invalid_start _ hs2]
        exact (by decide : ("Invalid start time".toList).contains ':' = false)
    · rcases he : Activity.validate_format_hour a.end_time with _ | _
      · have hcd := calculate_duration_invalid_end a hs he
        rw [hcd]
        refine ⟨rfl, Or.inr rfl, ?_⟩
        have he2 : Activity.validate_format_hour
            ({ a with _duration := "Invalid end time".toList } : Activity).end_time = false := he
        have hs2 : Activity.validate_format_hour
            ({ a with _duration := "Invalid end time".toList } : Activity).start_time = true := hs
        apply get_duration_in_minutes_no_colon
        · exact (by decide : ("Invalid end time".toList).contains ':' = false)
        · rw [calculate_duration_invalid_end _ hs2 he2]
          exact (by decide : ("Invalid end time".toList).contains ':' = false)
      · exact absurd ⟨hs, he⟩ hbad
  · intro r hbad
    rcases hs : Report.validate_format_hour r.entry_time with _ | _
    · have hcd := calculate_instance_hours_invalid_entry r hs
      rw [hcd]
      refine ⟨rfl, Or.inl rfl, ?_⟩
      have hs2 : Report.validate_format_hour
          ({ r with _instance_hours := "Invalid entry time".toList } : Report).entry_time = false := hs
      apply get_instance_hours_in_minutes_no_colon
      · exact (by decide : ("Invalid entry time".toList).contains ':' = false)
      · rw [calculate_instance_hours_invalid_entry _ hs2]
        exact (by decide : ("Invalid entry time".toList).contains ':' = false)
    · rcases he : Report.validate_format_hour r.exit_time with _ | _
      · have hcd := calculate_instance_hours_invalid_exit r hs he
        rw [hcd]
        refine ⟨rfl, Or.inr rfl, ?_⟩
        have he2 : Report.validate_format_hour
            ({ r with _instance_hours := "Invalid exit time".toList } : Report).exit_time = false := he
        have hs2 : Report.validate_format_hour
            ({ r with _instance_hours := "Invalid exit time".toList } : Report).entry_time = true := hs
        apply get_instance_hours_in_minutes_no_colon
        · exact (by decide : ("Invalid exit time".toList).contains ':' = false)
        · rw [calculate_instance_hours_invalid_exit _ hs2 he2]
          exact (by decide : ("Invalid exit time".toList).contains ':' = false)
      · exact absurd ⟨hs, he⟩ hbad

/-- Witness for C2: unparsable start "25:00" yields the sentinel and 0
minutes. -/
theorem C2_sentinel_witness :
    ¬ (Activity.validate_format_hour ("25:00".toList) = true ∧
      Activity.validate_format_hour ("11:00".toList) = true) ∧
    (Activity.calculate_duration (Activity.mk "T".toList "D".toList
      "25:00".toList "11:00".toList [] [])).2 = "Invalid start time".toList ∧
    (Activity.get_duration_in_minutes
      (Activity.calculate_duration (Activity.mk "T".toList "D".toList
        "25:00".toList "11:00".toList [] [])).1).2 = 0 := by
  refine ⟨by decide, ?_, ?_⟩
  · have h := (C2_sentinel.1 (Activity.mk "T".toList "D".toList
      "25:00".toList "11:00".toList [] []) (by decide))
    rcases h.2.1 with he | he
    · exact he
    · exact absurd he (by decide)
  · exact (C2_sentinel.1 (Activity.mk "T".toList "D".toList
      "25:00".toList "11:00".toList [] []) (by decide)).2.2

/-- C3 (code bug): the `duration` / `instance_hours` properties return the
cached value and only recompute when the cache is empty, so after a time
field is reassigned the property silently returns the stale value instead
of one recomputed from the current times: here the activity 09:00-11:30
has its end time changed to 12:30, yet `duration` still reads "02:30"
while recomputation gives "03:30" (and likewise for the report's
08:00-17:00 window changed to exit 18:00). -/
theorem C3_stale_cache :
    ((Activity.duration { exampleActivity1 with end_time := "12:30".toList }).2 = "02:30".toList ∧
     (Activity.calculate_duration { exampleActivity1 with end_time := "12:30".toList }).2 = "03:30".toList) ∧
    ((Report.instance_hours { exampleEmptyReport with exit_time := "18:00".toList }).2 = "09:00".toList ∧
     (Report.calculate_instance_hours { exampleEmptyReport with exit_time := "18:00".toList }).2 = "10:00".toList) := by
  decide

/-- C8: `Report.from_dict` substitutes today's date for a missing or
unparsable `date` value and defaults a missing `activities` key to the
empty list. -/
theorem C8_load_tolerance :
    (∀ (d : ReportDict) (today : PyDate), d.date = none →
      (Report.from_dict d today).date = today) ∧
    (∀ (d : ReportDict) (today : PyDate) (s : Str), d.date = some s →
      fromisoformat s = none →
      (Report.from_dict d today).date = today) ∧
    (∀ (d : ReportDict) (today : PyDate), d.activities = none →
      (Report.from_dict d today).activities = []) := by
  refine ⟨?_, ?_, ?_⟩
  · intro d today hd
    unfold Report.from_dict
    rw [hd]
    dsimp only
    rw [(report_mk_fields _ _ _ _ _ _ _).2.2.1]
    rfl
  · intro d today s hd hparse
    unfold Report.from_dict
    rw [hd]
    dsimp only
    rw [(report_mk_fields _ _ _ _ _ _ _).2.2.1]
    split
    · rw [hparse]
      rfl
    · rfl
  · intro d today hd
    unfold Report.from_dict
    rw [hd]
    dsimp only
    exact (report_mk_fields _ _ _ _ _ _ _).2.2.2.2.2

/-- Witness for C8: a document whose date field is the string
"not-a-date" loads with today's date, and a missing activities key gives
an empty list. -/
theorem C8_load_tolerance_witness :
    fromisoformat "not-a-date".toList = none ∧
    (Report.from_dict ⟨some "R".toList, some "S".toList,
      some "not-a-date".toList, some "08:00".toList, some "17:00".toList,
      none, none, none⟩ ⟨2026, 10, 12⟩).date = ⟨2026, 10, 12⟩ ∧
    (Report.from_dict ⟨some "R".toList, some "S".toList,
      some "not-a-date".toList, some "08:00".toList, some "17:00".toList,
      none, none, none⟩ ⟨2026, 10, 12⟩).activities = [] := by
  refine ⟨by decide, ?_, ?_⟩
  · exact C8_load_tolerance.2.1 _ _ "not-a-date".toList rfl (by decide)
  · exact C8_load_tolerance.2.2 _ _ rfl

/-- C10: every index-taking mutation (`Activity.delete_image`,
`Report.remove_activity`, `Report.edit_activity`, `Report.move_activity`)
rejects a negative index with a failure result and leaves the record
unchanged; Python-style negative indexing is never honored because every
bounds check requires `0 <= index < length`. -/
theorem C10_negative_index : ∀ (fs : FileSystem) (a : Activity) (r : Report)
    (act : Activity) (i : Int), i < 0 →
    Activity.delete_image a i = (a, false, "Invalid index".toList) ∧
    Report.remove_activity r i = (r, false, "Invalid index".toList) ∧
    Report.edit_activity fs r i act = (r, false, "Invalid index".toList) ∧
    (∀ j : Int, Report.move_activity r i j = (r, false, "Invalid source index".toList)) ∧
    (∀ j : Int, 0 ≤ j → j < (r.activities.length : Int) →
      Report.move_activity r j i = (r, false, "Invalid destination index".toList)) := by
  intro fs a r act i hi
  refine ⟨?_, ?_, ?_, ?_, ?_⟩
  · unfold Activity.delete_image
    rw [if_neg (by rintro ⟨h0, _⟩; omega)]
  · unfold Report.remove_activity
    rw [if_neg (by rintro ⟨h0, _⟩; omega)]
  · unfold Report.edit_activity
    rw [if_pos (by rintro ⟨h0, _⟩; omega)]
  · intro j
    unfold Report.move_activity
    rw [if_pos (by rintro ⟨h0, _⟩; omega)]
  · intro j hj0 hjl
    unfold Report.move_activity
    rw [if_neg (not_not_intro ⟨hj0, hjl⟩), if_pos (by rintro ⟨h0, _⟩; omega)]

/-- Witness for C10 at index -1. -/
theorem C10_negative_index_witness :
    Activity.delete_image exampleActivityImgs (-1) =
      (exampleActivityImgs, false, "Invalid index".toList) ∧
    Report.remove_activity exampleReport (-1) =
      (exampleReport, false, "Invalid index".toList) ∧
    Report.move_activity exampleReport 0 (-1) =
      (exampleReport, false, "Invalid destination index".toList) := by
  have h := C10_negative_index exampleFs exampleActivityImgs exampleReport
    exampleActivity1 (-1) (by decide)
  exact ⟨h.1, h.2.1, h.2.2.2.2 0 (by decide) (by decide)⟩

lemma validate_format_hour_ne_nil {s : Str}
    (h : Activity.validate_format_hour s = true) : s ≠ [] := by
  intro e
  subst e
  simp [Activity.validate_format_hour] at h

/-- C4 counterexample: validation does not check file sizes.  An activity
whose only image is an existing 11 MB ".jpg" file (11534336 bytes, above
the 10 MB limit the claim asserts) still passes
`Activity.complete_validate`, contradicting the claim that it fails. -/
theorem C4_oversized_image_counterexample :
    exampleFs "/img/big.jpg".toList = some 11534336 ∧
    11534336 > Activity.MAX_SIZE_IMAGE_MB * 1024 * 1024 ∧
    extLower "/img/big.jpg".toList = ".jpg".toList ∧
    (Activity.complete_validate exampleFs
      ( Activity.mk' "T".toList "D".toList "09:00".toList "11:30".toList
        ["/img/big.jpg".toList])).1 = true := by
  decide

/-- C4 (amended): `Activity.complete_validate` succeeds iff the required
fields and hours pass, the activity has at most 5 images, and every path
in its images list references an existing file whose lower-cased extension
is one of .jpg/.jpeg/.png; file sizes are not consulted by validation, and
the first failing image is named by its 1-based position in the message. -/
theorem C4_image_validation : ∀ (fs : FileSystem) (a : Activity),
    ((Activity.complete_validate fs a).1 = true ↔
      (Activity.validate_required_fields a).1 = true ∧
      (Activity.validate_hours a).1 = true ∧
      a.images.length ≤ Activity.MAX_IMAGES ∧
      ∀ p ∈ a.images, (fs p).isSome = true ∧
        Activity.FORMATS_ALLOW_IMAGE.contains (extLower p) = true) ∧
    (∀ (pre : List Str) (p : Str) (post : List Str),
      a.images = pre ++ p :: post →
      a.images.length ≤ Activity.MAX_IMAGES →
      (∀ q ∈ pre, (fs q).isSome = true ∧
        Activity.FORMATS_ALLOW_IMAGE.contains (extLower q) = true) →
      (fs p = none ∨ Activity.FORMATS_ALLOW_IMAGE.contains (extLower p) = false) →
      (Activity.validate_images fs a).2 =
        (if fs p = none then
          "Image ".toList ++ natDigits (pre.length + 1) ++ " not found: ".toList ++ p
        else
          "Image ".toList ++ natDigits (pre.length + 1) ++ " with invalid format".toList)) := by
  intro fs a
  constructor
  · rw [activity_complete_validate_true_iff, validate_images_true_iff]
  · intro pre p post himg hlen hgood hbad
    unfold Activity.validate_images
    rw [if_neg (by omega)]
    rw [himg, validate_images_from_first_bad fs p post pre 0 hgood hbad]
    simp only [Nat.zero_add]

/-- Witness for C4: a valid first image followed by a missing second image
produces the message naming position 2, and a size-free success case. -/
theorem C4_image_validation_witness :
    (Activity.validate_images exampleFs
      ( Activity.mk' "T".toList "D".toList "09:00".toList "11:30".toList
        ["/img/ok.jpg".toList, "/missing.png".toList])).2 =
      "Image 2 not found: /missing.png".toList := by
  have h := (C4_image_validation exampleFs
    ( Activity.mk' "T".toList "D".toList "09:00".toList "11:30".toList
      ["/img/ok.jpg".toList, "/missing.png".toList])).2
    ["/img/ok.jpg".toList] "/missing.png".toList [] (by decide) (by decide)
    (by decide) (by decide)
  exact h.trans (by decide)

/-- C6: `Report.complete_validate` succeeds iff responsible, student,
entry and exit times are non-blank (the date, a Python `date` object, is
always present), both times are well-formed in-range "HH:MM", the
activities list is non-empty and every contained activity independently
passes `Activity.complete_validate`; the checks run required-fields, then
times, then activities, so a report with zero activities and valid fields
fails with the message that at least one activity is required. -/
theorem C6_complete_validate : ∀ (fs : FileSystem) (r : Report),
    ((Report.complete_validate fs r).1 = true ↔
      Activity.isBlank r.responsible = false ∧
      Activity.isBlank r.student = false ∧
      Activity.isBlank r.entry_time = false ∧
      Activity.isBlank r.exit_time = false ∧
      Report.validate_format_hour r.entry_time = true ∧
      Report.validate_format_hour r.exit_time = true ∧
      r.activities ≠ [] ∧
      ∀ a ∈ r.activities, (Activity.complete_validate fs a).1 = true) ∧
    (r.activities = [] →
      (Report.validate_required_fields r).1 = true →
      (Report.validate_times r).1 = true →
      (Report.complete_validate fs r).2 =
        "Report must contain at least one activity".toList) := by
  intro fs r
  constructor
  · rw [report_complete_validate_true_iff, report_required_true_iff,
      validate_times_true_iff, validate_activities_true_iff]
    constructor
    · rintro ⟨⟨hb1, hb2, _, _⟩, ⟨he, hx⟩, hne, hall⟩
      refine ⟨hb1, hb2, ?_, ?_, he, hx, hne, hall⟩
      · obtain ⟨⟨hh, mm⟩, e⟩ :=
          validate_format_hour_exists (report_validate_format_hour_eq _ ▸ he)
        exact isBlank_false_of_strptime e
      · obtain ⟨⟨hh, mm⟩, e⟩ :=
          validate_format_hour_exists (report_validate_format_hour_eq _ ▸ hx)
        exact isBlank_false_of_strptime e
    · rintro ⟨hb1, hb2, _, _, he, hx, hne, hall⟩
      refine ⟨⟨hb1, hb2, ?_, ?_⟩, ⟨he, hx⟩, hne, hall⟩
      · exact validate_format_hour_ne_nil (report_validate_format_hour_eq _ ▸ he)
      · exact validate_format_hour_ne_nil (report_validate_format_hour_eq _ ▸ hx)
  · intro h1 h2 h3
    rw [report_complete_validate_empty_msg fs r h2 h3 h1]

/-- Witness for C6: the field-valid report with zero activities fails with
the at-least-one-activity message. -/
theorem C6_complete_validate_witness :
    (Report.complete_validate exampleFs exampleEmptyReport).2 =
      "Report must contain at least one activity".toList :=
  (C6_complete_validate exampleFs exampleEmptyReport).2 (by decide)
    (by decide) (by decide)

lemma perm_intRange_iff (no : List Int) (n : Nat) :
    no.Perm (Activity.intRange n) ↔
      no.length = n ∧ Activity.setEq no (Activity.intRange n) = true := by
  constructor
  · intro hp
    refine ⟨hp.length_eq.trans (intRange_length n), ?_⟩
    rw [setEq_true_iff]
    exact ⟨fun x hx => hp.mem_iff.mp hx, fun x hx => hp.mem_iff.mpr hx⟩
  · rintro ⟨hl, hs⟩
    rw [setEq_true_iff] at hs
    have hsub : List.Subperm (Activity.intRange n) no :=
      List.subperm_of_subset (intRange_nodup n) (fun x hx => hs.2 x hx)
    have hperm := hsub.perm_of_length_le (by rw [hl, intRange_length])
    exact hperm.symm

/-- C7: `Activity.reorganize_images new_order` succeeds iff `new_order` is
a true permutation of `0..N-1` for the current image count `N`; on success
the image at each position `i` of the new list is the old
`images[new_order[i]]`; on any failure the whole record (in particular the
images list) is left exactly unchanged. -/
theorem C7_reorganize_images : ∀ (a : Activity) (new_order : List Int),
    ((Activity.reorganize_images a new_order).2.1 = true ↔
      new_order.Perm (Activity.intRange a.images.length)) ∧
    ((Activity.reorganize_images a new_order).2.1 = true →
      (Activity.reorganize_images a new_order).1.images =
        new_order.map (fun i => (a.images.get? i.toNat).getD [])) ∧
    ((Activity.reorganize_images a new_order).2.1 = false →
      (Activity.reorganize_images a new_order).1 = a) := by
  intro a no
  unfold Activity.reorganize_images
  by_cases hlen : no.length = a.images.length
  · rw [if_neg (not_not_intro hlen)]
    rcases hset : Activity.setEq no (Activity.intRange a.images.length) with _ | _
    · rw [if_pos (by simp)]
      refine ⟨⟨fun h => absurd h (by simp), fun hp => ?_⟩,
        fun h => absurd h (by simp), fun _ => rfl⟩
      have := (perm_intRange_iff no a.images.length).mp hp
      rw [hset] at this
      exact absurd this.2 (by simp)
    · rw [if_neg (by simp)]
      have hcomp : Activity.listComp (Activity.pyIndex a.images) no =
          some (no.map (fun i => (a.images.get? i.toNat).getD [])) := by
        apply listComp_eq_map
        intro i hi
        have hmem : i ∈ Activity.intRange a.images.length :=
          ((setEq_true_iff _ _).mp hset).1 i hi
        obtain ⟨h0, hl⟩ := (intRange_mem_iff _ _).mp hmem
        unfold Activity.pyIndex
        rw [if_pos h0]
        rcases hq : a.images.get? i.toNat with _ | v
        · rw [List.get?_eq_none] at hq
          omega
        · rfl
      rw [hcomp]
      refine ⟨⟨fun _ => (perm_intRange_iff no a.images.length).mpr ⟨hlen, hset⟩,
        fun _ => rfl⟩, fun _ => rfl, fun h => absurd h (by simp)⟩
  · rw [if_pos hlen]
    refine ⟨⟨fun h => absurd h (by simp), fun hp => ?_⟩,
      fun h => absurd h (by simp), fun _ => rfl⟩
    exact absurd (hp.length_eq.trans (intRange_length _)) hlen

/-- Witness for C7: swapping two images succeeds and reorders them; a
repeated index fails and leaves the activity unchanged. -/
theorem C7_reorganize_images_witness :
    (Activity.reorganize_images exampleActivityImgs [1, 0]).1.images =
      ["/img/ok2.png".toList, "/img/ok.jpg".toList] ∧
    (Activity.reorganize_images exampleActivityImgs [0, 0]).1 =
      exampleActivityImgs := by
  constructor
  · have h := (C7_reorganize_images exampleActivityImgs [1, 0]).2.1 (by decide)
    exact h.trans (by decide)
  · exact (C7_reorganize_images exampleActivityImgs [0, 0]).2.2 (by decide)

/-- C9: for a report whose activities all have well-formed times and the
duration cache the constructor computed, `calculate_total_activity_hours`
returns the sum of the activities' durations in minutes reformatted as
zero-padded "HH:MM" with the hour part unbounded, and the average duration
is the floor of that total divided by the activity count, formatted the
same way, with "00:00" for zero activities. -/
theorem C9_totals : ∀ r : Report,
    (∀ a ∈ r.activities, (strptimeHM a.start_time).isSome = true ∧
      (strptimeHM a.end_time).isSome = true ∧
      a._duration = (Activity.calculate_duration a).2) →
    Report.calculate_total_activity_hours r =
      Activity.formatHM ((r.activities.map durationMinutesSpec).sum / 60)
        ((r.activities.map durationMinutesSpec).sum % 60) ∧
    (r.activities ≠ [] →
      Report.calculate_average_duration r =
        Activity.formatHM
          ((r.activities.map durationMinutesSpec).sum / r.activities.length / 60)
          ((r.activities.map durationMinutesSpec).sum / r.activities.length % 60)) ∧
    (r.activities = [] → Report.calculate_average_duration r = "00:00".toList) := by
  intro r hset
  have hsum := sum_duration_minutes r.activities
    (fun a ha => get_duration_settled a (hset a ha).1 (hset a ha).2.1 (hset a ha).2.2)
  refine ⟨?_, ?_, ?_⟩
  · unfold Report.calculate_total_activity_hours
    dsimp only
    rw [hsum]
    exact total_format _
  · intro hne
    unfold Report.calculate_average_duration
    rw [if_neg hne]
    dsimp only
    rw [hsum]
    have hfd : Int.fdiv (((r.activities.map durationMinutesSpec).sum : Nat) : Int)
        ((r.activities.length : Nat) : Int) =
        (((r.activities.map durationMinutesSpec).sum / r.activities.length : Nat) : Int) := by
      have h := (Int.ofNat_fdiv (r.activities.map durationMinutesSpec).sum
        r.activities.length).symm
      exact_mod_cast h
    rw [hfd]
    exact total_format _
  · intro he
    unfold Report.calculate_average_duration
    rw [if_pos he]

/-- Witness for C9 at the spec's example: activities of durations "02:30"
and "01:30" give total "04:00" and average "02:00". -/
theorem C9_totals_witness :
    Report.calculate_total_activity_hours exampleReport = "04:00".toList ∧
    Report.calculate_average_duration exampleReport = "02:00".toList := by
  have h := C9_totals exampleReport (by decide)
  exact ⟨h.1.trans (by decide), (h.2.1 (by decide)).trans (by decide)⟩

/-- C5: `Report.from_dict (report.to_dict())` reproduces responsible,
student, date, entry and exit times, and an activities list of the same
length whose element at each position matches the original activity's
title, start time, end time and images (captured by equality of the
projected lists). -/
theorem C5_roundtrip : ∀ (r : Report) (today : PyDate), ValidPyDate r.date →
    (Report.from_dict (Report.to_dict r) today).responsible = r.responsible ∧
    (Report.from_dict (Report.to_dict r) today).student = r.student ∧
    (Report.from_dict (Report.to_dict r) today).date = r.date ∧
    (Report.from_dict (Report.to_dict r) today).entry_time = r.entry_time ∧
    (Report.from_dict (Report.to_dict r) today).exit_time = r.exit_time ∧
    (Report.from_dict (Report.to_dict r) today).activities.map
        (fun a => (a.title, a.start_time, a.end_time, a.images)) =
      r.activities.map (fun a => (a.title, a.start_time, a.end_time, a.images)) := by
  intro r today hvd
  unfold Report.from_dict Report.to_dict
  dsimp only [Option.getD_some]
  have hdate : (if isoformat r.date ≠ [] then
      some ((fromisoformat (isoformat r.date)).getD today) else none) = some r.date := by
    rw [if_pos (isoformat_ne_nil r.date), fromisoformat_isoformat r.date hvd]
    rfl
  rw [hdate]
  have hacts : (if r.activities.map Activity.to_dict ≠ [] then
      (r.activities.map Activity.to_dict).map Activity.from_dict else []) =
      r.activities.map (fun a => Activity.from_dict (Activity.to_dict a)) := by
    split
    · rw [List.map_map]
      rfl
    · rename_i he
      rw [not_not] at he
      rw [List.map_eq_nil_iff.mp he]
      rfl
  rw [hacts]
  obtain ⟨e1, e2, e3, e4, e5, e6⟩ := report_mk_fields r.responsible r.student
    (some r.date) r.entry_time r.exit_time
    (r.activities.map (fun a => Activity.from_dict (Activity.to_dict a))) today
  refine ⟨e1, e2, by rw [e3]; rfl, e4, e5, ?_⟩
  rw [e6, List.map_map]
  apply List.map_congr_left
  intro a _
  obtain ⟨t1, t2, t3, t4⟩ := activity_from_to_dict a
  simp only [Function.comp_apply, t1, t2, t3, t4]

/-- Witness for C5 at a concrete report with two activities. -/
theorem C5_roundtrip_witness :
    (Report.from_dict (Report.to_dict exampleReport) ⟨2026, 1, 1⟩).date =
      exampleReport.date ∧
    (Report.from_dict (Report.to_dict exampleReport) ⟨2026, 1, 1⟩).activities.map
        (fun a => (a.title, a.start_time, a.end_time, a.images)) =
      exampleReport.activities.map
        (fun a => (a.title, a.start_time, a.end_time, a.images)) := by
  have h := C5_roundtrip exampleReport ⟨2026, 1, 1⟩ (by decide)
  exact ⟨h.2.2.1, h.2.2.2.2.2⟩

end ReportesServicio
